import Mathlib

/-!
Shallow embedding of the adaptive interview engine, the integrity monitor,
the question bank and the post-hoc evaluator of the
AI-Agent-for-Resume-Relevance-Scoring repository.

Python floats are modelled as rationals (`ℚ`), Python ints as `Int`/`Nat`,
`datetime` instants as rational seconds, Python dicts as insertion-ordered
association lists, and raised exceptions as `Except String`.  The regular
expression engine (`re.search`) and the semantic-similarity NLP collaborator
are external to the verified core and are passed in as function parameters.
-/

set_option autoImplicit false

namespace ResumeAgent

/-! ### Generic helpers: Python string / dict primitives -/

/-- Python `needle in haystack` for strings: substring containment. -/
def strContains (haystack needle : String) : Bool :=
  (List.range (haystack.data.length + 1)).any fun i =>
    needle.data.isPrefixOf (haystack.data.drop i)

/-- Python `str.lower()` (ASCII inputs). -/
def strLower (s : String) : String :=
  ⟨s.data.map Char.toLower⟩

/-- Python `str.strip()`: drop whitespace from both ends. -/
def strTrim (s : String) : String :=
  ⟨((s.data.dropWhile Char.isWhitespace).reverse.dropWhile
      Char.isWhitespace).reverse⟩

/-- Worker for `pySplitWs`, structurally recursive so that it reduces in
the kernel. -/
def pyWordsAux : List Char → List Char → List (List Char)
  | acc, [] => if acc = [] then [] else [acc.reverse]
  | acc, c :: cs =>
    if c.isWhitespace then
      if acc = [] then pyWordsAux [] cs else acc.reverse :: pyWordsAux [] cs
    else pyWordsAux (c :: acc) cs

/-- Python `str.split()` with no argument: split on whitespace runs,
dropping empty pieces. -/
def pySplitWs (s : String) : List String :=
  (pyWordsAux [] s.data).map (fun l => (⟨l⟩ : String))

/-- Worker for `pySplitOn`; the fuel argument makes the recursion
structural (every step consumes at least one character, so
`length + 1` fuel suffices). -/
def pySplitOnAux (sep : List Char) : Nat → List Char → List Char →
    List (List Char)
  | 0, acc, _ => [acc.reverse]
  | fuel + 1, acc, l =>
    match l with
    | [] => [acc.reverse]
    | c :: cs =>
      if sep.isPrefixOf (c :: cs) then
        acc.reverse :: pySplitOnAux sep fuel [] (cs.drop (sep.length - 1))
      else pySplitOnAux sep fuel (c :: acc) cs

/-- Python `str.split(sep)` for a non-empty separator: splits on every
occurrence, keeping empty pieces. -/
def pySplitOn (s sep : String) : List String :=
  if sep.data = [] then [s]
  else
    (pySplitOnAux sep.data (s.data.length + 1) [] s.data).map
      (fun l => (⟨l⟩ : String))

/-- Python `str.replace(pat, rep)` (non-empty `pat`). -/
def strReplace (s pat rep : String) : String :=
  String.intercalate rep (pySplitOn s pat)

/-- Python `l[-n:]`. -/
def takeLast {α : Type} (n : Nat) (l : List α) : List α :=
  l.drop (l.length - n)

/-- Dict lookup (`d.get(k)` / `d[k]` read) on an insertion-ordered
association list. -/
def lookupA {α : Type} (l : List (String × α)) (k : String) : Option α :=
  match l.find? (fun p => decide (p.1 = k)) with
  | some p => some p.2
  | none => none

/-- Dict assignment `d[k] = v`: update in place if present, else append. -/
def setA {α : Type} (l : List (String × α)) (k : String) (v : α) :
    List (String × α) :=
  if (lookupA l k).isSome then
    l.map (fun p => if p.1 = k then (k, v) else p)
  else
    l ++ [(k, v)]

/-- Dict deletion `del d[k]`. -/
def removeA {α : Type} (l : List (String × α)) (k : String) :
    List (String × α) :=
  l.filter (fun p => decide (p.1 ≠ k))

/-- Decidable equality for `Except`, used to evaluate error-path results on
concrete inputs. -/
instance instDecEqExcept {ε α : Type} [DecidableEq ε] [DecidableEq α] :
    DecidableEq (Except ε α) := fun a b =>
  match a, b with
  | .ok x, .ok y =>
    if h : x = y then isTrue (by rw [h])
    else isFalse (fun hh => h (Except.ok.inj hh))
  | .error x, .error y =>
    if h : x = y then isTrue (by rw [h])
    else isFalse (fun hh => h (Except.error.inj hh))
  | .ok _, .error _ => isFalse (fun hh => Except.noConfusion hh)
  | .error _, .ok _ => isFalse (fun hh => Except.noConfusion hh)

/-! ### Data model (`src/utils/data_models.py`) -/

/-- `DifficultyLevel` enum. -/
inductive DifficultyLevel
  | beginner
  | intermediate
  | advanced
  | expert
deriving DecidableEq

/-- String value of a difficulty tier (the enum's `.value`). -/
def DifficultyLevel.val : DifficultyLevel → String
  | .beginner => "beginner"
  | .intermediate => "intermediate"
  | .advanced => "advanced"
  | .expert => "expert"

/-- `QuestionType` enum. -/
inductive QuestionType
  | multiple_choice
  | coding
  | conceptual
  | practical
deriving DecidableEq

/-- `Question` dataclass.  `time_limit` and `points` are ints; the optional
fields model Python `Optional[str]`. -/
structure Question where
  question_id : String
  text : String
  qtype : QuestionType
  difficulty : DifficultyLevel
  category : String
  topics : List String
  expected_answer : Option String
  code_template : Option String
  time_limit : Int
  points : Int
deriving DecidableEq

/-- `Answer` dataclass: `time_taken` in seconds (int), `submitted_at` as
rational seconds, `score` 0-100. -/
structure Answer where
  question_id : String
  answer_text : String
  code_snippet : Option String
  time_taken : Int
  submitted_at : ℚ
  score : ℚ
  feedback : String
deriving DecidableEq

/-- `IntegrityMetrics` dataclass: the per-answer integrity snapshot. -/
structure IntegrityMetrics where
  session_id : String
  copy_paste_detected : Bool
  unusual_timing_patterns : Bool
  browser_anomalies : Bool
  answer_consistency_score : ℚ
  overall_integrity_score : ℚ
  flags : List String
deriving DecidableEq

/-- `InterviewSession` dataclass.  `compliance_status` is stored as the
string actually assigned by the engine ("compliant"). -/
structure InterviewSession where
  session_id : String
  candidate_id : String
  job_id : String
  started_at : ℚ
  current_question : Option Question
  answers : List Answer
  difficulty_level : DifficultyLevel
  integrity_score : ℚ
  compliance_status : String
  is_active : Bool
deriving DecidableEq

/-! ### IntegrityMonitor (`src/compliance/integrity_monitor.py`) -/

/-- One entry of the monitor's per-session `answers` list. -/
structure MonitorAnswer where
  question_id : String
  answer_text : String
  time_taken : Int
  integrity_score : ℚ
  flags : List String
  timestamp : ℚ
deriving DecidableEq

/-- The monitor's per-session record.  Browser events are kept as their
event-type strings (the `details`/`timestamp` payloads are never read by the
monitor after being stored).  The unused `time_patterns`, `text_patterns`
and `keystroke_data` lists are omitted: no code path reads or writes them
after initialization. -/
structure MonitorSession where
  session_id : String
  candidate_id : String
  start_time : ℚ
  answers : List MonitorAnswer
  browser_events : List String
  integrity_flags : List String
  current_integrity_score : ℚ
deriving DecidableEq

/-- The monitor's `session_data` dict. -/
abbrev MonitorState : Type := List (String × MonitorSession)

/-- `Config.INTEGRITY_SCORE_THRESHOLD` (`config/settings.py`). -/
def integrityScoreThreshold : ℚ := 7/10

/-- `IntegrityMonitor.time_thresholds` (seconds). -/
def timeThresholds_min_answer_time : Int := 5
def timeThresholds_max_answer_time : Int := 1800
def timeThresholds_suspiciously_fast : Int := 10
def timeThresholds_suspiciously_slow : Int := 600

/-- `IntegrityMonitor.suspicious_patterns`: the raw regex pattern strings,
grouped by pattern type, in source order.  Their matching semantics live in
the external regex engine (the `reSearch` parameter below). -/
def suspiciousPatterns : List (String × List String) :=
  [("copy_paste",
    ["^\\s*$",
     "^.\x7b1,5\x7d$",
     "^(idk|don\\'t know|no idea|unsure)\\s*$",
     "^[a-zA-Z]\\s*[a-zA-Z]\\s*[a-zA-Z]\\s*$"]),
   ("repetition",
    ["(.\x7b20,\x7d)\\1\x7b2,\x7d"]),
   ("formatting_anomalies",
    ["[^\\w\\s\\.\\,\\;\\:\\!\\?\\-\\(\\)\\[\\]\\\x7b\\\x7d\\\"\\']+",
     "\\s\x7b5,\x7d"])]

/-- Score-and-flags pair returned by each of the three per-answer signal
analyses. -/
structure SignalResult where
  score : ℚ
  flags : List String
deriving DecidableEq

/-- `IntegrityMonitor.initialize_session_monitoring`. -/
def initializeSessionMonitoring (mon : MonitorState) (session_id : String)
    (candidate_id : String) (now : ℚ) : MonitorState :=
  setA mon session_id
    { session_id := session_id
      candidate_id := candidate_id
      start_time := now
      answers := []
      browser_events := []
      integrity_flags := []
      current_integrity_score := 100 }

/-- `IntegrityMonitor._contains_suspicious_code`: counts regex matches of the
code-indicator patterns; more than 2 is suspicious. -/
def codeIndicators : List String :=
  ["function\\s+\\w+\\s*\\(",
   "class\\s+\\w+\\s*:",
   "import\\s+\\w+",
   "def\\s+\\w+\\s*\\(",
   "print\\s*\\(",
   "console\\.log\\s*\\("]

def containsSuspiciousCode (reSearch : String → String → Bool)
    (text : String) : Bool :=
  decide (2 < (codeIndicators.filter (fun pat => reSearch pat text)).length)

/-- `IntegrityMonitor._matches_common_template`. -/
def templatePhrases : List String :=
  ["this is a great question",
   "i would approach this by",
   "the best way to solve this is",
   "in my experience",
   "it depends on the context",
   "there are multiple ways to"]

def matchesCommonTemplate (text : String) : Bool :=
  decide (2 ≤ (templatePhrases.filter
    (fun phrase => strContains (strLower text) (strLower phrase))).length)

/-- `IntegrityMonitor._estimate_question_complexity`: 1-5 keyword tiers,
taking the maximum matching tier. -/
def complexityIndicators : List (Nat × List String) :=
  [(1, ["what is", "define", "name", "list"]),
   (2, ["explain", "describe", "how does"]),
   (3, ["compare", "contrast", "analyze"]),
   (4, ["design", "implement", "create"]),
   (5, ["optimize", "architect", "solve complex"])]

def estimateQuestionComplexity (question_text : String) : Nat :=
  let textLower := strLower question_text
  complexityIndicators.foldl
    (fun maxComplexity ci =>
      if ci.2.any (fun ind => strContains textLower ind) then
        max maxComplexity ci.1
      else maxComplexity)
    1

/-- `IntegrityMonitor._analyze_timing_integrity`.  Note that the source's
`elif time_taken < min_answer_time` branch is unreachable: any time below
the soft floor (5s) already satisfies the `suspiciously_fast` (10s) guard. -/
def analyzeTimingIntegrity (time_taken : Int) (question_text : String) :
    SignalResult :=
  let score : ℚ := 100
  let flags : List String := []
  let fast :=
    if time_taken < timeThresholds_suspiciously_fast then
      (score - 40, flags ++ ["timing_suspiciously_fast"])
    else if time_taken < timeThresholds_min_answer_time then
      (score - 20, flags ++ ["timing_too_fast"])
    else (score, flags)
  let slow :=
    if time_taken > timeThresholds_suspiciously_slow then
      (fast.1 - 30, fast.2 ++ ["timing_suspiciously_slow"])
    else if time_taken > timeThresholds_max_answer_time then
      (fast.1 - 15, fast.2 ++ ["timing_too_slow"])
    else fast
  let questionComplexity := estimateQuestionComplexity question_text
  let expectedTime : ℚ := (questionComplexity : ℚ) * 60
  let dev :=
    if |(time_taken : ℚ) - expectedTime| > expectedTime * (8/10) then
      (slow.1 - 15, slow.2 ++ ["timing_unexpected_for_complexity"])
    else slow
  ⟨max 0 dev.1, dev.2⟩

/-- `IntegrityMonitor._analyze_text_integrity`.  `reSearch pat text` models
`re.search(pat, text, re.IGNORECASE)`. -/
def analyzeTextIntegrity (reSearch : String → String → Bool)
    (answer_text : String) : SignalResult :=
  if (strTrim answer_text).length < 3 then
    ⟨0, ["copy_paste_empty_answer"]⟩
  else
    let afterPatterns :=
      suspiciousPatterns.foldl
        (fun acc group =>
          group.2.foldl
            (fun (acc : ℚ × List String) pat =>
              if reSearch pat answer_text then
                (acc.1 - 20, acc.2 ++ [group.1 ++ "_detected"])
              else acc)
            acc)
        ((100 : ℚ), ([] : List String))
    let answerLength := (strTrim answer_text).length
    let afterLength :=
      if answerLength < 10 then
        (afterPatterns.1 - 30, afterPatterns.2 ++ ["copy_paste_too_short"])
      else if answerLength > 2000 then
        (afterPatterns.1 - 15, afterPatterns.2 ++ ["copy_paste_too_long"])
      else afterPatterns
    let afterCode :=
      if containsSuspiciousCode reSearch answer_text then
        (afterLength.1 - 25, afterLength.2 ++ ["copy_paste_suspicious_code"])
      else afterLength
    let afterTemplate :=
      if matchesCommonTemplate answer_text then
        (afterCode.1 - 20, afterCode.2 ++ ["copy_paste_template_match"])
      else afterCode
    ⟨max 0 afterTemplate.1, afterTemplate.2⟩

/-- The four writing-style metrics of
`IntegrityMonitor._analyze_writing_style_consistency.get_style_metrics`. -/
structure StyleMetrics where
  avg_word_length : ℚ
  avg_sentence_length : ℚ
  punctuation_ratio : ℚ
  capitalization_ratio : ℚ
deriving DecidableEq

def getStyleMetrics (text : String) : StyleMetrics :=
  let words := pySplitWs text
  let sentences := pySplitOn text "."
  { avg_word_length :=
      if words ≠ [] then
        ((words.map (fun w => (w.length : ℚ))).sum) / (words.length : ℚ)
      else 0
    avg_sentence_length :=
      if sentences ≠ [] then
        ((sentences.map (fun s => ((pySplitWs s).length : ℚ))).sum) /
          (sentences.length : ℚ)
      else 0
    punctuation_ratio :=
      ((text.data.filter (fun c => c = '.')).length : ℚ) +
      ((text.data.filter (fun c => c = ',')).length : ℚ) +
      ((text.data.filter (fun c => c = '!')).length : ℚ) +
      ((text.data.filter (fun c => c = '?')).length : ℚ)
    capitalization_ratio :=
      if text ≠ "" then
        ((text.data.filter Char.isUpper).length : ℚ) / (text.length : ℚ)
      else 0 }

/-- Per-metric contribution of the style-consistency comparison: skipped
when the previous average is not positive. -/
def styleKeyScore (cur avg : ℚ) : List ℚ :=
  if avg > 0 then [max 0 (1 - |cur - avg| / avg)] else []

/-- `IntegrityMonitor._analyze_writing_style_consistency`. -/
def analyzeWritingStyleConsistency (current_text : String)
    (previous_answers : List MonitorAnswer) : ℚ :=
  if previous_answers = [] then 1
  else
    let currentStyle := getStyleMetrics current_text
    let previousStyles :=
      (takeLast 5 previous_answers).map (fun a => getStyleMetrics a.answer_text)
    let n : ℚ := (previousStyles.length : ℚ)
    let avgStyle : StyleMetrics :=
      { avg_word_length := ((previousStyles.map (·.avg_word_length)).sum) / n
        avg_sentence_length :=
          ((previousStyles.map (·.avg_sentence_length)).sum) / n
        punctuation_ratio := ((previousStyles.map (·.punctuation_ratio)).sum) / n
        capitalization_ratio :=
          ((previousStyles.map (·.capitalization_ratio)).sum) / n }
    let consistencyScores :=
      styleKeyScore currentStyle.avg_word_length avgStyle.avg_word_length ++
      styleKeyScore currentStyle.avg_sentence_length avgStyle.avg_sentence_length ++
      styleKeyScore currentStyle.punctuation_ratio avgStyle.punctuation_ratio ++
      styleKeyScore currentStyle.capitalization_ratio avgStyle.capitalization_ratio
    if consistencyScores ≠ [] then
      consistencyScores.sum / (consistencyScores.length : ℚ)
    else 1

/-- `IntegrityMonitor._assess_answer_quality`: 0-1 quality heuristic. -/
def assessAnswerQuality (answer_text : String) : ℚ :=
  if answer_text = "" then 0
  else
    let length := (strTrim answer_text).length
    let lengthFactor : ℚ :=
      if 50 ≤ length ∧ length ≤ 500 then 3/10
      else if 500 < length ∧ length ≤ 1000 then 4/10
      else if length > 1000 then 2/10
      else 0
    let technicalTerms :=
      ["algorithm", "function", "method", "approach", "implement", "optimize"]
    let techCount := (technicalTerms.filter
      (fun t => strContains (strLower answer_text) (strLower t))).length
    let techFactor : ℚ := min (3/10) ((techCount : ℚ) * (1/10))
    let structureFactor : ℚ :=
      if strContains answer_text "." ∧
          2 < (answer_text.data.filter (fun c => c = '.')).length then 2/10
      else 0
    let explanationWords :=
      ["because", "therefore", "however", "additionally", "furthermore"]
    let explCount := (explanationWords.filter
      (fun w => strContains (strLower answer_text) (strLower w))).length
    let explFactor : ℚ := min (2/10) ((explCount : ℚ) * (5/100))
    min 1 (lengthFactor + techFactor + structureFactor + explFactor)

/-- `IntegrityMonitor._analyze_knowledge_consistency`. -/
def analyzeKnowledgeConsistency (current : Answer)
    (previous_answers : List MonitorAnswer) : ℚ :=
  if previous_answers = [] then 1
  else
    let currentQuality := assessAnswerQuality current.answer_text
    let previousQualities :=
      (takeLast 3 previous_answers).map (fun a => assessAnswerQuality a.answer_text)
    if previousQualities = [] then 1
    else
      let avgPrev := previousQualities.sum / (previousQualities.length : ℚ)
      max 0 (1 - |currentQuality - avgPrev|)

/-- `IntegrityMonitor._is_repeated_answer`.  The source compares MD5 digests
of the lower-cased, stripped texts; digest equality is modelled as equality
of the normalised strings. -/
def isRepeatedAnswer (current_text : String)
    (previous_answers : List MonitorAnswer) : Bool :=
  previous_answers.any fun a =>
    decide (strTrim (strLower current_text) = strTrim (strLower a.answer_text))

/-- `IntegrityMonitor._analyze_answer_consistency`. -/
def analyzeAnswerConsistency (current : Answer)
    (previous_answers : List MonitorAnswer) : SignalResult :=
  if previous_answers = [] then ⟨100, []⟩
  else
    let styleConsistency :=
      analyzeWritingStyleConsistency current.answer_text previous_answers
    let afterStyle : ℚ × List String :=
      if styleConsistency < 7/10 then
        (100 - 20, ["consistency_style_change"])
      else (100, [])
    let knowledgeConsistency := analyzeKnowledgeConsistency current previous_answers
    let afterKnowledge :=
      if knowledgeConsistency < 6/10 then
        (afterStyle.1 - 25, afterStyle.2 ++ ["consistency_knowledge_level_change"])
      else afterStyle
    let afterRepeat :=
      if isRepeatedAnswer current.answer_text previous_answers then
        (afterKnowledge.1 - 35, afterKnowledge.2 ++ ["consistency_repeated_answer"])
      else afterKnowledge
    ⟨max 0 afterRepeat.1, afterRepeat.2⟩

/-- `IntegrityMonitor._calculate_session_integrity_score`: mean of the
per-answer overall scores, 100 for an empty history. -/
def calculateSessionIntegrityScore (s : MonitorSession) : ℚ :=
  if s.answers = [] then 100
  else
    ((s.answers.map (·.integrity_score)).sum) / (s.answers.length : ℚ)

/-- `IntegrityMonitor.analyze_answer_integrity`: raises (models as
`Except.error`) when the session was never initialized for monitoring;
otherwise produces the per-answer metrics and updates the monitor state. -/
def analyzeAnswerIntegrity (reSearch : String → String → Bool)
    (mon : MonitorState) (session_id : String) (answer : Answer)
    (question_text : String) :
    Except String (MonitorState × IntegrityMetrics) :=
  match lookupA mon session_id with
  | none =>
    .error ("Session " ++ session_id ++ " not found in monitoring data")
  | some session =>
    let textAnalysis := analyzeTextIntegrity reSearch answer.answer_text
    let timingAnalysis := analyzeTimingIntegrity answer.time_taken question_text
    let consistencyAnalysis := analyzeAnswerConsistency answer session.answers
    let integrityFlags :=
      textAnalysis.flags ++ timingAnalysis.flags ++ consistencyAnalysis.flags
    let overallScore :=
      (textAnalysis.score + timingAnalysis.score + consistencyAnalysis.score) / 3
    let sessionWithAnswer : MonitorSession :=
      { session with answers := session.answers ++
          [{ question_id := answer.question_id
             answer_text := answer.answer_text
             time_taken := answer.time_taken
             integrity_score := overallScore
             flags := integrityFlags
             timestamp := answer.submitted_at }] }
    let sessionUpdated :=
      { sessionWithAnswer with
          current_integrity_score :=
            calculateSessionIntegrityScore sessionWithAnswer }
    let metrics : IntegrityMetrics :=
      { session_id := session_id
        copy_paste_detected :=
          integrityFlags.any (fun flag => strContains flag "copy_paste")
        unusual_timing_patterns :=
          integrityFlags.any (fun flag => strContains flag "timing")
        browser_anomalies :=
          integrityFlags.any (fun flag => strContains flag "browser")
        answer_consistency_score := consistencyAnalysis.score
        overall_integrity_score := overallScore
        flags := integrityFlags }
    .ok (setA mon session_id sessionUpdated, metrics)

/-- Summary statistics of `IntegrityMonitor._analyze_answer_patterns`
(`none` models the `{}` returned for an empty history). -/
structure AnswerPatterns where
  average_answer_time : ℚ
  fastest_answer : Int
  slowest_answer : Int
  average_integrity_score : ℚ
  lowest_integrity_score : ℚ
  integrity_score_variance : ℚ
deriving DecidableEq

def analyzeAnswerPatterns (answers : List MonitorAnswer) :
    Option AnswerPatterns :=
  match answers with
  | [] => none
  | a :: rest =>
    let times := (a :: rest).map (·.time_taken)
    let scores := (a :: rest).map (·.integrity_score)
    some
      { average_answer_time :=
          (((times.map (fun t => (t : ℚ))).sum)) / (times.length : ℚ)
        fastest_answer := (rest.map (·.time_taken)).foldl min a.time_taken
        slowest_answer := (rest.map (·.time_taken)).foldl max a.time_taken
        average_integrity_score := scores.sum / (scores.length : ℚ)
        lowest_integrity_score :=
          (rest.map (·.integrity_score)).foldl min a.integrity_score
        integrity_score_variance :=
          (rest.map (·.integrity_score)).foldl max a.integrity_score -
            (rest.map (·.integrity_score)).foldl min a.integrity_score }

/-- `IntegrityMonitor._generate_integrity_recommendations`. -/
def generateIntegrityRecommendations (s : MonitorSession) : List String :=
  let r0 : List String :=
    if s.current_integrity_score < integrityScoreThreshold then
      ["Review session for potential integrity violations"]
    else []
  let r1 :=
    if s.integrity_flags.contains "browser_tab_switch" then
      r0 ++ ["Candidate switched browser tabs during interview"]
    else r0
  let r2 :=
    if s.integrity_flags.contains "copy_paste_detected" then
      r1 ++ ["Copy-paste activity detected during interview"]
    else r1
  let fastAnswers := s.answers.filter (fun a => decide (a.time_taken < 10))
  let r3 :=
    if (s.answers.length : ℚ) * (3/10) < (fastAnswers.length : ℚ) then
      r2 ++ ["Multiple suspiciously fast answers detected"]
    else r2
  let lowScoreAnswers := s.answers.filter (fun a => decide (a.integrity_score < 50))
  if (s.answers.length : ℚ) * (2/10) < (lowScoreAnswers.length : ℚ) then
    r3 ++ ["Multiple low-integrity answers detected"]
  else r3

/-- `IntegrityMonitor.get_session_integrity_report` result record. -/
structure SessionIntegrityReport where
  session_id : String
  candidate_id : String
  overall_integrity_score : ℚ
  risk_level : String
  total_answers : Nat
  integrity_flags : List String
  browser_events_count : Nat
  session_duration : ℚ
  answer_analysis : Option AnswerPatterns
  recommendations : List String
deriving DecidableEq

/-- `IntegrityMonitor.get_session_integrity_report`: raises for an unknown
session id. -/
def getSessionIntegrityReport (mon : MonitorState) (session_id : String)
    (now : ℚ) : Except String SessionIntegrityReport :=
  match lookupA mon session_id with
  | none => .error ("Session " ++ session_id ++ " not found")
  | some s =>
    .ok
      { session_id := session_id
        candidate_id := s.candidate_id
        overall_integrity_score := s.current_integrity_score
        risk_level :=
          if s.current_integrity_score < integrityScoreThreshold then "HIGH"
          else "LOW"
        total_answers := s.answers.length
        integrity_flags := s.integrity_flags
        browser_events_count := s.browser_events.length
        session_duration := now - s.start_time
        answer_analysis := analyzeAnswerPatterns s.answers
        recommendations := generateIntegrityRecommendations s }

/-- `IntegrityMonitor.record_browser_event` (event payload reduced to its
type string, the only part later read). -/
def recordBrowserEvent (mon : MonitorState) (session_id : String)
    (event_type : String) : MonitorState :=
  match lookupA mon session_id with
  | none => mon
  | some s =>
    let s1 := { s with browser_events := s.browser_events ++ [event_type] }
    let s2 :=
      if event_type = "tab_switch" ∨ event_type = "window_focus_lost" ∨
          event_type = "copy_paste_detected" then
        { s1 with integrity_flags := s1.integrity_flags ++ ["browser_" ++ event_type] }
      else s1
    setA mon session_id s2

/-- `IntegrityMonitor.cleanup_session_data`. -/
def cleanupSessionData (mon : MonitorState) (session_id : String) :
    MonitorState :=
  if (lookupA mon session_id).isSome then removeA mon session_id else mon

/-! ### QuestionBank (`src/interview_engine/question_bank.py`)

The bank's `questions` dict is keyed by `question_id`, so its values (in
insertion order) form a list of questions with pairwise-distinct ids; the
bank list is a parameter of the engine embedding (its content comes from a
JSON file or the seeded defaults). -/

/-- `QuestionBank.get_questions_by_category`. -/
def getQuestionsByCategory (bank : List Question) (category : String)
    (difficulty : Option DifficultyLevel) : List Question :=
  bank.filter fun q =>
    decide (q.category = category) &&
      (match difficulty with
       | none => true
       | some d => decide (q.difficulty = d))

/-- `QuestionBank.get_questions_by_difficulty`. -/
def getQuestionsByDifficulty (bank : List Question) (d : DifficultyLevel) :
    List Question :=
  bank.filter fun q => decide (q.difficulty = d)

/-- Difficulty mix used by `get_balanced_question_set`. -/
def difficultiesOrder : List DifficultyLevel :=
  [.beginner, .intermediate, .advanced, .expert]

/-- The per-category pass of `QuestionBank.get_balanced_question_set`:
for each target category, the first question of each difficulty tier is
appended while the selection is below `count`.  (The computed
`questions_per_category` variable of the source is dead and omitted.) -/
def balancedCategoryPass (bank : List Question) (count : Nat)
    (target_categories : List String) : List Question :=
  target_categories.foldl
    (fun selected category =>
      let categoryQuestions := getQuestionsByCategory bank category none
      if categoryQuestions = [] then selected
      else
        difficultiesOrder.foldl
          (fun selected diff =>
            match categoryQuestions.filter (fun q => decide (q.difficulty = diff)) with
            | [] => selected
            | q :: _ =>
              if selected.length < count then selected ++ [q] else selected)
          selected)
    []

/-- The fill `while` loop of `get_balanced_question_set`: keep appending the
first bank question not yet selected until `count` is reached or the bank is
exhausted.  Each iteration grows the selection by one, so `count` steps of
fuel suffice. -/
def balancedFill (bank : List Question) (count : Nat) :
    Nat → List Question → List Question
  | 0, selected => selected
  | fuel + 1, selected =>
    if selected.length < count then
      match bank.filter (fun q => decide (q ∉ selected)) with
      | [] => selected
      | q :: _ => balancedFill bank count fuel (selected ++ [q])
    else selected

/-- `QuestionBank.get_balanced_question_set`. -/
def getBalancedQuestionSet (bank : List Question) (count : Nat)
    (target_categories : List String) : List Question :=
  (balancedFill bank count count
    (balancedCategoryPass bank count target_categories)).take count

/-! ### Answer evaluation rubrics
(`AdaptiveInterviewEngine._evaluate_*`, `src/interview_engine/adaptive_interview.py`) -/

/-- Score + feedback pair produced by the rubrics. -/
structure EvalResult where
  score : ℚ
  feedback : String
deriving DecidableEq

/-- `AdaptiveInterviewEngine._evaluate_multiple_choice`.  (The numeric
`Score: ..%` prefix of the feedback string is presentation-layer float
formatting and is not reproduced; the tier messages are.) -/
def evaluateMultipleChoice (answer : Answer) (question : Question) :
    EvalResult :=
  let expectedKeywords :=
    match question.expected_answer with
    | some e => if e ≠ "" then pySplitOn (strLower e) "," else []
    | none => []
  let answerText := strLower answer.answer_text
  let matchCount :=
    (expectedKeywords.filter (fun kw => strContains answerText (strTrim kw))).length
  let score : ℚ :=
    if expectedKeywords ≠ [] then
      ((matchCount : ℚ) / (expectedKeywords.length : ℚ)) * 100
    else 0
  let feedback :=
    if score ≥ 80 then "Excellent answer!"
    else if score ≥ 60 then "Good answer with room for improvement."
    else "Answer needs improvement. Review the key concepts."
  ⟨score, feedback⟩

/-- `AdaptiveInterviewEngine._evaluate_coding_answer`.  The feedback string
keeps only the joined signal names (float formatting omitted). -/
def evaluateCodingAnswer (answer : Answer) (question : Question) :
    EvalResult :=
  let codeToEvaluate :=
    match answer.code_snippet with
    | some c => if c ≠ "" then c else answer.answer_text
    | none => answer.answer_text
  if strTrim codeToEvaluate = "" then ⟨0, "No code provided."⟩
  else
    let s0 : ℚ × List String := (0, [])
    let s1 :=
      if strContains codeToEvaluate "def " ∨ strContains codeToEvaluate "class " then
        (s0.1 + 30, s0.2 ++ ["Function/class structure present"])
      else s0
    let s2 :=
      if question.category = "python_programming" then
        if ["import", "return", "def"].any
            (fun kw => strContains (strLower codeToEvaluate) kw) then
          (s1.1 + 20, s1.2 ++ ["Proper Python syntax"])
        else s1
      else if question.category = "machine_learning" then
        if ["fit", "predict", "transform", "model"].any
            (fun kw => strContains (strLower codeToEvaluate) kw) then
          (s1.1 + 25, s1.2 ++ ["ML workflow elements present"])
        else s1
      else s1
    let s3 :=
      if ["try:", "except", "if", "else"].any
          (fun kw => strContains codeToEvaluate kw) then
        (s2.1 + 15, s2.2 ++ ["Error handling implemented"])
      else s2
    let s4 :=
      if strContains codeToEvaluate "#" ∨
          strContains codeToEvaluate "\"\"\"" then
        (s3.1 + 10, s3.2 ++ ["Code documentation present"])
      else s3
    let s5 :=
      if 5 < (pySplitOn codeToEvaluate "\n").length then
        (s4.1 + 10, s4.2 ++ ["Adequate implementation length"])
      else s4
    ⟨min 100 s5.1, String.intercalate "; " s5.2⟩

/-- `AdaptiveInterviewEngine._evaluate_conceptual_answer`.  `sim` is the
external semantic-similarity collaborator
(`NLPProcessor.calculate_semantic_similarity`, a value in [0,1]). -/
def evaluateConceptualAnswer (sim : String → String → ℚ) (answer : Answer)
    (question : Question) : EvalResult :=
  let hasExpected : Bool :=
    match question.expected_answer with
    | some e => decide (e ≠ "")
    | none => false
  if !hasExpected then
    let answerLength := (pySplitWs answer.answer_text).length
    if answerLength < 10 then ⟨20, "Answer too brief"⟩
    else if answerLength < 30 then ⟨50, "Answer could be more detailed"⟩
    else if answerLength < 100 then ⟨80, "Good detailed answer"⟩
    else ⟨90, "Comprehensive answer"⟩
  else
    let expected := (question.expected_answer).getD ""
    let similarity := sim answer.answer_text expected
    let score0 := similarity * 100
    let answerWords := (pySplitWs answer.answer_text).length
    let score :=
      if answerWords < 10 then min score0 30
      else if answerWords > 200 then min (score0 + 10) 100
      else score0
    let feedback :=
      if score ≥ 80 then "Excellent understanding demonstrated"
      else if score ≥ 60 then "Good understanding with some gaps"
      else if score ≥ 40 then "Partial understanding - needs improvement"
      else "Limited understanding of the concept"
    ⟨score, feedback⟩

/-- `AdaptiveInterviewEngine._evaluate_practical_answer` (feedback reduced to
the joined signal names). -/
def evaluatePracticalAnswer (answer : Answer) (question : Question) :
    EvalResult :=
  let answerText := strLower answer.answer_text
  let s0 : ℚ × List String := (0, [])
  let s1 :=
    if ["first", "then", "next", "finally", "step"].any
        (fun kw => strContains answerText kw) then
      (s0.1 + 25, s0.2 ++ ["Structured approach"])
    else s0
  let s2 :=
    if ["analyze", "evaluate", "compare", "consider"].any
        (fun kw => strContains answerText kw) then
      (s1.1 + 20, s1.2 ++ ["Analytical thinking demonstrated"])
    else s1
  let s3 :=
    if question.category = "machine_learning" ∨
        question.category = "data_science_fundamentals" then
      let techKeywords :=
        ["data", "model", "algorithm", "feature", "training", "validation"]
      if 2 ≤ (techKeywords.filter (fun kw => strContains answerText kw)).length then
        (s2.1 + 20, s2.2 ++ ["Technical terminology used correctly"])
      else s2
    else s2
  let answerLength := (pySplitWs answer.answer_text).length
  let s4 :=
    if answerLength > 50 then
      (s3.1 + 15, s3.2 ++ ["Comprehensive answer"])
    else if answerLength > 20 then
      (s3.1 + 10, s3.2 ++ ["Adequate detail"])
    else s3
  let s5 :=
    if ["example", "instance", "such as", "like"].any
        (fun kw => strContains answerText kw) then
      (s4.1 + 10, s4.2 ++ ["Examples provided"])
    else s4
  let s6 :=
    if ["conclusion", "therefore", "thus", "in summary"].any
        (fun kw => strContains answerText kw) then
      (s5.1 + 10, s5.2 ++ ["Clear conclusion"])
    else s5
  ⟨min 100 s6.1, String.intercalate "; " s6.2⟩

/-- `AdaptiveInterviewEngine._evaluate_answer`: dispatch on the question
type.  (The rubric bodies are total here, so the `except` fallback that
converts internal rubric errors to a zero score never fires.) -/
def evaluateAnswer (sim : String → String → ℚ) (answer : Answer)
    (question : Question) : EvalResult :=
  match question.qtype with
  | .multiple_choice => evaluateMultipleChoice answer question
  | .coding => evaluateCodingAnswer answer question
  | .conceptual => evaluateConceptualAnswer sim answer question
  | .practical => evaluatePracticalAnswer answer question

/-! ### AdaptiveInterviewEngine (`src/interview_engine/adaptive_interview.py`) -/

/-- `Config.MAX_QUESTIONS_PER_INTERVIEW`. -/
def maxQuestionsPerSession : Nat := 15

/-- `AdaptiveInterviewEngine.min_questions_per_session`. -/
def minQuestionsPerSession : Nat := 5

/-- `Config.MAX_INTERVIEW_DURATION` (seconds). -/
def sessionTimeout : ℚ := 7200

/-- One entry of the engine's `performance_history` list. -/
structure PerfEntry where
  question_id : String
  score : ℚ
  difficulty : String
  category : String
  time_taken : Int
  integrity_score : ℚ
deriving DecidableEq

/-- The per-session value of the engine's `active_sessions` dict. -/
structure SessionData where
  session : InterviewSession
  remaining_questions : List Question
  asked_questions : List Question
  performance_history : List PerfEntry
  category_performance : List (String × List ℚ)
  integrity_metrics : List IntegrityMetrics
deriving DecidableEq

/-- Combined engine state: the question bank (fixed per engine instance),
the integrity monitor's registry and the engine's session registry. -/
structure EngineState where
  bank : List Question
  monitor : MonitorState
  active_sessions : List (String × SessionData)
deriving DecidableEq

/-- The position of a tier in `difficulty_order`. -/
def DifficultyLevel.index : DifficultyLevel → Nat
  | .beginner => 0
  | .intermediate => 1
  | .advanced => 2
  | .expert => 3

/-- The tier one step up (identity at the top). -/
def DifficultyLevel.stepUp : DifficultyLevel → DifficultyLevel
  | .beginner => .intermediate
  | .intermediate => .advanced
  | .advanced => .expert
  | .expert => .expert

/-- The tier one step down (identity at the bottom). -/
def DifficultyLevel.stepDown : DifficultyLevel → DifficultyLevel
  | .beginner => .beginner
  | .intermediate => .beginner
  | .advanced => .intermediate
  | .expert => .advanced

/-- `AdaptiveInterviewEngine._adjust_difficulty` with the configured step of
one tier (`difficulty_step_up = difficulty_step_down = 1`). -/
def adjustDifficulty (current : DifficultyLevel) (avg_score : ℚ) :
    DifficultyLevel :=
  if avg_score > 85 ∧ current.index < 3 then current.stepUp
  else if avg_score < 40 ∧ 0 < current.index then current.stepDown
  else current

/-- Stable insertion into a list sorted ascending by the score component
(equal keys keep their relative order), modelling Python's stable
`list.sort(key=...)`. -/
def insertByScore (x : String × ℚ) : List (String × ℚ) → List (String × ℚ)
  | [] => [x]
  | y :: ys => if x.2 ≤ y.2 then x :: y :: ys else y :: insertByScore x ys

def sortByScore (l : List (String × ℚ)) : List (String × ℚ) :=
  l.foldr insertByScore []

/-- `AdaptiveInterviewEngine._identify_weak_categories`: categories with a
running average below 60, ordered worst-first. -/
def identifyWeakCategories (category_performance : List (String × List ℚ)) :
    List String :=
  let weak := category_performance.foldl
    (fun acc p =>
      if p.2 ≠ [] then
        let avgScore := p.2.sum / (p.2.length : ℚ)
        if avgScore < 60 then acc ++ [(p.1, avgScore)] else acc
      else acc)
    []
  (sortByScore weak).map (·.1)

/-- Average of the last up-to-3 performance-history scores (the
`avg_recent_score` computed in `_select_next_question` and in the
termination check of `_determine_next_action`). -/
def recentAverage (history : List PerfEntry) : ℚ :=
  let recent := takeLast 3 history
  ((recent.map (·.score)).sum) / (recent.length : ℚ)

/-- The candidate pool consulted by `_select_next_question` at a given
difficulty: the weakest category's questions at that difficulty when weak
categories exist, else all questions of that difficulty. -/
def selectionPool (bank : List Question) (sd : SessionData)
    (newDifficulty : DifficultyLevel) : List Question :=
  match identifyWeakCategories sd.category_performance with
  | c :: _ => getQuestionsByCategory bank c (some newDifficulty)
  | [] => getQuestionsByDifficulty bank newDifficulty

/-- The pool after filtering out already-asked question ids. -/
def availablePool (bank : List Question) (sd : SessionData)
    (newDifficulty : DifficultyLevel) : List Question :=
  let askedIds := sd.asked_questions.map (·.question_id)
  (selectionPool bank sd newDifficulty).filter
    (fun q => decide (q.question_id ∉ askedIds))

/-- `AdaptiveInterviewEngine._select_next_question`: returns the selected
question (if any) together with the session difficulty after the call (the
source assigns `session.difficulty_level = new_difficulty` only when the
filtered pool is non-empty; the fallback to the remaining initial set leaves
the difficulty untouched). -/
def selectNextQuestion (bank : List Question) (sd : SessionData) :
    Option Question × DifficultyLevel :=
  match sd.performance_history with
  | [] => (none, sd.session.difficulty_level)
  | _ :: _ =>
    let avgRecentScore := recentAverage sd.performance_history
    let newDifficulty :=
      adjustDifficulty sd.session.difficulty_level avgRecentScore
    match availablePool bank sd newDifficulty with
    | q :: _ => (some q, newDifficulty)
    | [] =>
      match sd.remaining_questions with
      | q :: _ => (some q, sd.session.difficulty_level)
      | [] => (none, sd.session.difficulty_level)

/-- `AdaptiveInterviewEngine._determine_next_action`: either the session is
complete, or the next question is attached (updating the pending question,
the difficulty and the remaining-question list). -/
def determineNextAction (bank : List Question) (sd : SessionData) (now : ℚ) :
    SessionData × Bool × Option Question :=
  if maxQuestionsPerSession ≤ sd.performance_history.length then
    (sd, true, none)
  else if sessionTimeout < now - sd.session.started_at then
    (sd, true, none)
  else if minQuestionsPerSession ≤ sd.performance_history.length ∧
      (recentAverage sd.performance_history < 30 ∨
       90 < recentAverage sd.performance_history) then
    (sd, true, none)
  else
    match selectNextQuestion bank sd with
    | (some q, newDifficulty) =>
      let sd' :=
        { sd with
            session :=
              { sd.session with
                  current_question := some q
                  difficulty_level := newDifficulty }
            remaining_questions :=
              sd.remaining_questions.filter
                (fun r => decide (r.question_id ≠ q.question_id)) }
      (sd', false, some q)
    | (none, _) => (sd, true, none)

/-- The `session_progress` snapshot of `submit_answer`. -/
structure SessionProgress where
  questions_asked : Nat
  max_questions : Nat
  current_difficulty : String
  average_score : ℚ
  time_elapsed : ℚ
  integrity_score : ℚ
deriving DecidableEq

/-- `AdaptiveInterviewEngine._calculate_session_progress`. -/
def calculateSessionProgress (sd : SessionData) (now : ℚ) : SessionProgress :=
  { questions_asked := sd.performance_history.length
    max_questions := maxQuestionsPerSession
    current_difficulty := sd.session.difficulty_level.val
    average_score :=
      if sd.performance_history ≠ [] then
        ((sd.performance_history.map (·.score)).sum) /
          (sd.performance_history.length : ℚ)
      else 0
    time_elapsed := now - sd.session.started_at
    integrity_score := sd.session.integrity_score }

/-- One entry of the report's `question_results` list. -/
structure QuestionResult where
  question_text : String
  question_category : String
  question_difficulty : String
  score : ℚ
  time_taken : Int
deriving DecidableEq

/-- The report's `integrity_metrics` summary
(`_summarize_integrity_metrics`); `total_flags` is absent (`none`) in the
empty-history default dict. -/
structure IntegritySummary where
  average_integrity_score : ℚ
  copy_paste_incidents : Nat
  timing_anomalies : Nat
  browser_anomalies : Nat
  total_flags : Option Nat
deriving DecidableEq

/-- The report's `compliance_summary`. -/
structure ComplianceSummary where
  overall_status : String
  integrity_score : ℚ
  violations : Nat
deriving DecidableEq

/-- `InterviewReport` dataclass (as far as populated by the engine). -/
structure InterviewReport where
  session_id : String
  candidate_id : String
  overall_score : ℚ
  domain_scores : List (String × ℚ)
  question_results : List QuestionResult
  strengths : List String
  weaknesses : List String
  recommendations : List String
  integrity_metrics : IntegritySummary
  compliance_summary : ComplianceSummary
  generated_at : ℚ
deriving DecidableEq

/-- `AdaptiveInterviewEngine._summarize_integrity_metrics`. -/
def summarizeIntegrityMetrics (ms : List IntegrityMetrics) :
    IntegritySummary :=
  if ms = [] then
    { average_integrity_score := 100
      copy_paste_incidents := 0
      timing_anomalies := 0
      browser_anomalies := 0
      total_flags := none }
  else
    { average_integrity_score :=
        ((ms.map (·.overall_integrity_score)).sum) / (ms.length : ℚ)
      copy_paste_incidents := (ms.filter (·.copy_paste_detected)).length
      timing_anomalies := (ms.filter (·.unusual_timing_patterns)).length
      browser_anomalies := (ms.filter (·.browser_anomalies)).length
      total_flags := some ((ms.map (fun m => m.flags.length)).sum) }

/-- `AdaptiveInterviewEngine._generate_recommendations`. -/
def generateRecommendations (domain_scores : List (String × ℚ))
    (overall_score : ℚ) : List String :=
  let r0 : List String :=
    if overall_score < 50 then
      ["Consider additional training and practice before advancing to technical roles"]
    else if overall_score < 70 then
      ["Focus on strengthening fundamental concepts"]
    else []
  let r1 := domain_scores.foldl
    (fun acc p =>
      if p.2 < 60 then
        if p.1 = "python_programming" then
          acc ++ ["Practice Python programming with focus on data structures and algorithms"]
        else if p.1 = "machine_learning" then
          acc ++ ["Study machine learning fundamentals and practical implementations"]
        else if p.1 = "agentic_ai_systems" then
          acc ++ ["Learn about agent architectures and coordination patterns"]
        else if p.1 = "prompt_engineering" then
          acc ++ ["Practice prompt design and LLM interaction patterns"]
        else acc
      else acc)
    r0
  if r1 = [] then
    ["Strong performance across all areas. Consider advanced topics and specialization"]
  else r1

/-- Placeholder question used to totalize the `next(...)` generator lookup
in `_generate_interview_report`; that lookup cannot miss because every
performance-history entry records the id of a question simultaneously
appended to `asked_questions`. -/
def dummyQuestion : Question :=
  { question_id := ""
    text := ""
    qtype := .conceptual
    difficulty := .beginner
    category := ""
    topics := []
    expected_answer := none
    code_template := none
    time_limit := 0
    points := 0 }

/-- `AdaptiveInterviewEngine._generate_interview_report`. -/
def generateInterviewReport (sd : SessionData) (session_id : String)
    (now : ℚ) : InterviewReport :=
  let overallScore : ℚ :=
    if sd.performance_history ≠ [] then
      ((sd.performance_history.map (·.score)).sum) /
        (sd.performance_history.length : ℚ)
    else 0
  let domainScores : List (String × ℚ) :=
    sd.category_performance.foldl
      (fun acc p =>
        if p.2 ≠ [] then acc ++ [(p.1, p.2.sum / (p.2.length : ℚ))] else acc)
      []
  let questionResults : List QuestionResult :=
    sd.performance_history.map fun perf =>
      let question :=
        ((sd.asked_questions.find?
          (fun q => decide (q.question_id = perf.question_id))).getD dummyQuestion)
      { question_text := question.text
        question_category := question.category
        question_difficulty := question.difficulty.val
        score := perf.score
        time_taken := perf.time_taken }
  let strengths :=
    domainScores.foldl
      (fun acc p =>
        if p.2 ≥ 80 then
          acc ++ ["Strong performance in " ++ (strReplace p.1 "_" " ")]
        else acc)
      []
  let weaknesses :=
    domainScores.foldl
      (fun acc p =>
        if p.2 < 50 then
          acc ++ ["Needs improvement in " ++ (strReplace p.1 "_" " ")]
        else acc)
      []
  { session_id := session_id
    candidate_id := sd.session.candidate_id
    overall_score := overallScore
    domain_scores := domainScores
    question_results := questionResults
    strengths := strengths
    weaknesses := weaknesses
    recommendations := generateRecommendations domainScores overallScore
    integrity_metrics := summarizeIntegrityMetrics sd.integrity_metrics
    compliance_summary :=
      { overall_status :=
          if sd.session.integrity_score > integrityScoreThreshold then
            "compliant"
          else "flagged"
        integrity_score := sd.session.integrity_score
        violations :=
          (sd.integrity_metrics.filter
            (fun m => decide (m.overall_integrity_score < 50))).length }
    generated_at := now }

/-- `submit_answer` result dict. -/
structure SubmitResult where
  answer_score : ℚ
  answer_feedback : String
  integrity_metrics : IntegrityMetrics
  session_complete : Bool
  next_question : Option Question
  session_progress : SessionProgress
  interview_report : Option InterviewReport
deriving DecidableEq

/-- Appending a score to `category_performance` (creating the category's
list on first use), as in `submit_answer`. -/
def appendCategoryScore (cp : List (String × List ℚ)) (category : String)
    (score : ℚ) : List (String × List ℚ) :=
  if (lookupA cp category).isSome then
    cp.map (fun p => if p.1 = category then (p.1, p.2 ++ [score]) else p)
  else cp ++ [(category, [score])]

/-- The `Answer` object built and scored at the top of `submit_answer`
(created with a zero score, then filled in from the evaluation result). -/
def buildAnswer (sim : String → String → ℚ) (currentQuestion : Question)
    (answer_text : String) (time_taken : Int) (code_snippet : Option String)
    (now : ℚ) : Answer :=
  let answer0 : Answer :=
    { question_id := currentQuestion.question_id
      answer_text := answer_text
      code_snippet := code_snippet
      time_taken := time_taken
      submitted_at := now
      score := 0
      feedback := "" }
  let evaluationResult := evaluateAnswer sim answer0 currentQuestion
  { answer0 with
      score := evaluationResult.score
      feedback := evaluationResult.feedback }

/-- The "Update session data" block of `submit_answer`: append the answer,
the asked question, the performance-history entry and the per-category
score, then store the latest integrity metric and overwrite the session
integrity score with its overall value. -/
def updateSessionData (sd : SessionData) (currentQuestion : Question)
    (answer : Answer) (time_taken : Int) (metrics : IntegrityMetrics) :
    SessionData :=
  let sd1 :=
    { sd with
        session :=
          { sd.session with answers := sd.session.answers ++ [answer] }
        asked_questions := sd.asked_questions ++ [currentQuestion]
        performance_history := sd.performance_history ++
          [({ question_id := currentQuestion.question_id
              score := answer.score
              difficulty := currentQuestion.difficulty.val
              category := currentQuestion.category
              time_taken := time_taken
              integrity_score := metrics.overall_integrity_score } :
            PerfEntry)] }
  let sd2 :=
    { sd1 with
        category_performance :=
          appendCategoryScore sd1.category_performance
            currentQuestion.category answer.score }
  { sd2 with
      session :=
        { sd2.session with
            integrity_score := metrics.overall_integrity_score }
      integrity_metrics := sd2.integrity_metrics ++ [metrics] }

/-- The `_end_session` marking (`is_active = False` just before the session
is deleted from the registry). -/
def markSessionEnded (sd : SessionData) : SessionData :=
  { sd with session := { sd.session with is_active := false } }

/-- `AdaptiveInterviewEngine.submit_answer`.  State mutations are applied in
source order; a raised exception (`Except.error`) returns the state as
mutated so far — both `ValueError` guards and the integrity-monitor error
fire before any mutation, so the state is unchanged on every error path.
On completion the session is marked inactive, the report is generated, the
monitor entry is cleaned up and the session is removed from the registry
(`_end_session`). -/
def submitAnswer (reSearch : String → String → Bool)
    (sim : String → String → ℚ) (st : EngineState) (session_id : String)
    (answer_text : String) (time_taken : Int) (code_snippet : Option String)
    (now : ℚ) : EngineState × Except String SubmitResult :=
  match lookupA st.active_sessions session_id with
  | none => (st, .error ("Session " ++ session_id ++ " not found"))
  | some sd =>
    match sd.session.current_question with
    | none => (st, .error "No current question for this session")
    | some currentQuestion =>
      let answer := buildAnswer sim currentQuestion answer_text time_taken
        code_snippet now
      match analyzeAnswerIntegrity reSearch st.monitor session_id answer
          currentQuestion.text with
      | .error e => (st, .error e)
      | .ok (monitor', metrics) =>
        let sd3 := updateSessionData sd currentQuestion answer time_taken
          metrics
        let next := determineNextAction st.bank sd3 now
        let sd4 := next.1
        let complete := next.2.1
        let result0 : SubmitResult :=
          { answer_score := answer.score
            answer_feedback := answer.feedback
            integrity_metrics := metrics
            session_complete := complete
            next_question := next.2.2
            session_progress := calculateSessionProgress sd4 now
            interview_report := none }
        if complete then
          let report := generateInterviewReport sd4 session_id now
          let st' : EngineState :=
            { st with
                monitor := cleanupSessionData monitor' session_id
                active_sessions :=
                  removeA
                    (setA st.active_sessions session_id (markSessionEnded sd4))
                    session_id }
          (st', .ok { result0 with interview_report := some report })
        else
          let st' : EngineState :=
            { st with
                monitor := monitor'
                active_sessions := setA st.active_sessions session_id sd4 }
          (st', .ok result0)

/-- The default target categories of `_generate_initial_question_set`. -/
def defaultCategories : List String :=
  ["data_science_fundamentals", "machine_learning", "python_programming",
   "agentic_ai_systems", "prompt_engineering"]

/-- The category resolution of `_generate_initial_question_set` (Python
truthiness: `None` and the empty list both fall back to the defaults). -/
def resolveTargetCategories (target_categories : Option (List String)) :
    List String :=
  match target_categories with
  | some cs => if cs ≠ [] then cs else defaultCategories
  | none => defaultCategories

/-- The fresh `InterviewSession` and registry entry created by
`start_interview_session` from the initial balanced question set. -/
def newSessionData (session_id candidate_id job_id : String) (now : ℚ)
    (initialQuestions : List Question) : SessionData :=
  { session :=
      { session_id := session_id
        candidate_id := candidate_id
        job_id := job_id
        started_at := now
        current_question := initialQuestions.head?
        answers := []
        difficulty_level := .intermediate
        integrity_score := 100
        compliance_status := "compliant"
        is_active := true }
    remaining_questions := initialQuestions.drop 1
    asked_questions :=
      match initialQuestions with
      | [] => []
      | q :: _ => [q]
    performance_history := []
    category_performance := []
    integrity_metrics := [] }

/-- `AdaptiveInterviewEngine.start_interview_session`.  The fresh UUID is
taken as the `session_id` argument; `now` is the start instant. -/
def startInterviewSession (st : EngineState) (session_id candidate_id job_id :
    String) (target_categories : Option (List String)) (now : ℚ) :
    EngineState × InterviewSession :=
  let monitor' := initializeSessionMonitoring st.monitor session_id
    candidate_id now
  let initialQuestions :=
    getBalancedQuestionSet st.bank minQuestionsPerSession
      (resolveTargetCategories target_categories)
  let sd := newSessionData session_id candidate_id job_id now initialQuestions
  ({ st with
      monitor := monitor'
      active_sessions := setA st.active_sessions session_id sd }, sd.session)

/-! ### InterviewEvaluator._assess_role_suitability
(`src/interview_engine/evaluator.py`) -/

/-- One entry of the evaluator's fixed `role_requirements` dict, in
insertion order. -/
structure RoleRequirement where
  role : String
  critical_domains : List String
  preferred_domains : List String
  min_overall_score : ℚ
deriving DecidableEq

def roleRequirements : List RoleRequirement :=
  [{ role := "Data Scientist"
     critical_domains :=
       ["data_science_fundamentals", "statistics_probability",
        "machine_learning"]
     preferred_domains := ["python_programming", "sql_databases"]
     min_overall_score := 70 },
   { role := "ML Engineer"
     critical_domains := ["machine_learning", "python_programming",
        "deep_learning"]
     preferred_domains := ["mlops_devops", "cloud_platforms"]
     min_overall_score := 75 },
   { role := "Agentic AI Developer"
     critical_domains := ["agentic_ai_systems", "prompt_engineering",
        "llm_fundamentals"]
     preferred_domains := ["python_programming", "machine_learning"]
     min_overall_score := 80 },
   { role := "Data Analyst"
     critical_domains := ["data_science_fundamentals", "sql_databases",
        "python_programming"]
     preferred_domains := ["statistics_probability"]
     min_overall_score := 65 }]

/-- One domain's weighted contribution to a role score: scores are read
through the domain-score dict and scaled by the weight; a missing domain
contributes only to the maximum, not to the score. -/
def domainContribution (domain_scores : List (String × ℚ)) (w : ℚ)
    (d : String) : ℚ :=
  match lookupA domain_scores d with
  | some v => v / 100 * w
  | none => 0

/-- The weighted per-role suitability percentage computed by the loop body
of `_assess_role_suitability`. -/
def roleScore (domain_scores : List (String × ℚ)) (overall_score : ℚ)
    (req : RoleRequirement) : ℚ :=
  let critScore :=
    ((req.critical_domains.map (domainContribution domain_scores 40))).sum
  let prefScore :=
    ((req.preferred_domains.map (domainContribution domain_scores 20))).sum
  let overallPart : ℚ :=
    if overall_score ≥ req.min_overall_score then overall_score / 100 * 40
    else 0
  let maxScore : ℚ :=
    40 * (req.critical_domains.length : ℚ) +
      20 * (req.preferred_domains.length : ℚ) + 40
  let score := critScore + prefScore + overallPart
  if maxScore > 0 then score / maxScore * 100 else 0

/-- Python `max(d, key=d.get)` over the insertion-ordered keys: the first
key whose value is strictly greater than the running best wins, so ties keep
the earliest key. -/
def pyMaxByValue : List (String × ℚ) → Option String
  | [] => none
  | p :: ps =>
    some ((ps.foldl (fun best q => if q.2 > best.2 then q else best) p).1)

/-- Result record of `_assess_role_suitability`. -/
structure RoleSuitability where
  role_scores : List (String × ℚ)
  best_fit_role : Option String
  best_fit_score : ℚ
deriving DecidableEq

/-- `InterviewEvaluator._assess_role_suitability`. -/
def assessRoleSuitability (domain_scores : List (String × ℚ))
    (overall_score : ℚ) : RoleSuitability :=
  let suitabilityScores :=
    roleRequirements.map fun req =>
      (req.role, roleScore domain_scores overall_score req)
  let bestRole := pyMaxByValue suitabilityScores
  { role_scores := suitabilityScores
    best_fit_role := bestRole
    best_fit_score :=
      match bestRole with
      | some r => (lookupA suitabilityScores r).getD 0
      | none => 0 }

/-! ### Association-list lemmas -/

theorem lookupA_cons {α : Type} (p : String × α) (l : List (String × α))
    (k : String) :
    lookupA (p :: l) k = if p.1 = k then some p.2 else lookupA l k := by
  by_cases h : p.1 = k <;> simp [lookupA, List.find?, h]

theorem lookupA_map_set {α : Type} (l : List (String × α)) (k : String)
    (v : α) (hk : (lookupA l k).isSome) :
    lookupA (l.map (fun p => if p.1 = k then (k, v) else p)) k = some v := by
  induction l with
  | nil => simp [lookupA] at hk
  | cons p t ih =>
    by_cases h : p.1 = k
    · simp [h, lookupA_cons]
    · rw [lookupA_cons] at hk
      simp only [h, if_false] at hk
      simpa [h, lookupA_cons] using ih hk

theorem lookupA_setA_self {α : Type} (l : List (String × α)) (k : String)
    (v : α) : lookupA (setA l k v) k = some v := by
  unfold setA
  by_cases h : (lookupA l k).isSome
  · simpa [h] using lookupA_map_set l k v h
  · simp only [h, if_false]
    induction l with
    | nil => simp [lookupA_cons]
    | cons p t ih =>
      rw [lookupA_cons] at h
      by_cases hp : p.1 = k
      · simp [hp] at h
      · simp only [hp, if_false] at h
        simpa [List.cons_append, lookupA_cons, hp] using ih h

theorem lookupA_map_set_ne {α : Type} (l : List (String × α)) (k k' : String)
    (v : α) (h : k' ≠ k) :
    lookupA (l.map (fun p => if p.1 = k then (k, v) else p)) k' =
      lookupA l k' := by
  induction l with
  | nil => rfl
  | cons p t ih =>
    by_cases hp : p.1 = k
    · have h1 : ¬ (((k, v) : String × α).1 = k') := fun hh => h hh.symm
      have h2 : ¬ (p.1 = k') := by rw [hp]; exact fun hh => h hh.symm
      simp only [List.map_cons, if_pos hp]
      rw [lookupA_cons, lookupA_cons, if_neg h1, if_neg h2, ih]
    · simp only [List.map_cons, if_neg hp]
      rw [lookupA_cons, lookupA_cons, ih]

theorem lookupA_append_single_ne {α : Type} (l : List (String × α))
    (k k' : String) (v : α) (h : k' ≠ k) :
    lookupA (l ++ [(k, v)]) k' = lookupA l k' := by
  induction l with
  | nil => simp [lookupA_cons, Ne.symm h, lookupA]
  | cons p t ih =>
    by_cases hp : p.1 = k' <;> simp [List.cons_append, lookupA_cons, hp, ih]

theorem lookupA_setA_ne {α : Type} (l : List (String × α)) (k k' : String)
    (v : α) (h : k' ≠ k) : lookupA (setA l k v) k' = lookupA l k' := by
  unfold setA
  by_cases hs : (lookupA l k).isSome
  · simpa [hs] using lookupA_map_set_ne l k k' v h
  · simpa [hs] using lookupA_append_single_ne l k k' v h

theorem lookupA_removeA_self {α : Type} (l : List (String × α)) (k : String) :
    lookupA (removeA l k) k = none := by
  induction l with
  | nil => simp [removeA, lookupA]
  | cons p t ih =>
    by_cases hp : p.1 = k
    · simpa [removeA, hp] using ih
    · simpa [removeA, hp, lookupA_cons] using ih

theorem lookupA_removeA_ne {α : Type} (l : List (String × α)) (k k' : String)
    (h : k' ≠ k) : lookupA (removeA l k) k' = lookupA l k' := by
  induction l with
  | nil => rfl
  | cons p t ih =>
    by_cases hp : p.1 = k
    · have h2 : ¬ (p.1 = k') := by rw [hp]; exact fun hh => h hh.symm
      simp only [removeA, List.filter_cons] at ih ⊢
      rw [if_neg (by simp [hp]), ih, lookupA_cons, if_neg h2]
    · simp only [removeA, List.filter_cons] at ih ⊢
      rw [if_pos (by simp [hp]), lookupA_cons, lookupA_cons, ih]

theorem lookupA_mem {α : Type} {l : List (String × α)} {k : String} {v : α}
    (h : lookupA l k = some v) : (k, v) ∈ l := by
  unfold lookupA at h
  cases hf : l.find? (fun p => decide (p.1 = k)) with
  | none => rw [hf] at h; exact absurd h (by simp)
  | some p =>
    rw [hf] at h
    have hm := List.mem_of_find?_eq_some hf
    have hk := List.find?_some hf
    simp only [decide_eq_true_eq] at hk
    have hp : p = (k, v) := by
      obtain ⟨a, b⟩ := p
      simp only at hk
      simp only [Option.some.injEq] at h
      rw [hk, h]
    exact hp ▸ hm

/-! ### The no-repeated-question invariant -/

/-- Question ids of the answers recorded in a session. -/
def answerIdsOf (sd : SessionData) : List String :=
  sd.session.answers.map (·.question_id)

/-- Question ids of the `asked_questions` list. -/
def askedIdsOf (sd : SessionData) : List String :=
  sd.asked_questions.map (·.question_id)

/-- The session-data invariant maintained by the engine: recorded answers
have pairwise-distinct question ids, every answered id was asked, and the
pending question and the remaining initial questions are fresh. -/
def InvSD (sd : SessionData) : Prop :=
  (answerIdsOf sd).Nodup ∧
  (∀ i ∈ answerIdsOf sd, i ∈ askedIdsOf sd) ∧
  (∀ q, sd.session.current_question = some q →
    q.question_id ∉ answerIdsOf sd ∧
    ∀ r ∈ sd.remaining_questions,
      r.question_id ∉ askedIdsOf sd ∧ r.question_id ≠ q.question_id)

/-- A question returned by `_select_next_question` comes either from the
asked-filtered adaptive pool or from the remaining initial set. -/
theorem selectNextQuestion_sources (bank : List Question) (sd : SessionData)
    (q : Question) (nd : DifficultyLevel)
    (h : selectNextQuestion bank sd = (some q, nd)) :
    q ∈ availablePool bank sd
      (adjustDifficulty sd.session.difficulty_level
        (recentAverage sd.performance_history)) ∨
    q ∈ sd.remaining_questions := by
  unfold selectNextQuestion at h
  cases hph : sd.performance_history with
  | nil => rw [hph] at h; simp at h
  | cons e es =>
    rw [hph] at h
    simp only at h
    cases hpool : availablePool bank sd
        (adjustDifficulty sd.session.difficulty_level
          (recentAverage (e :: es))) with
    | cons q' qs =>
      rw [hpool] at h
      simp only [Prod.mk.injEq, Option.some.injEq] at h
      exact Or.inl (h.1 ▸ List.mem_cons_self q' qs)
    | nil =>
      rw [hpool] at h
      cases hr : sd.remaining_questions with
      | nil => rw [hr] at h; simp at h
      | cons r rs =>
        rw [hr] at h
        simp only [Prod.mk.injEq, Option.some.injEq] at h
        exact Or.inr (h.1 ▸ List.mem_cons_self r rs)

/-- A question delivered by `_select_next_question` never repeats an id from
the (already updated) `asked_questions` list, and filtering the remaining
set keeps the invariant: the decision step of `submit_answer` preserves
`InvSD`. -/
theorem invSD_step (bank : List Question) (sd : SessionData) (cq : Question)
    (now : ℚ) (ans : Answer)
    (hq : sd.session.current_question = some cq)
    (hansid : ans.question_id = cq.question_id)
    (hinv : InvSD sd)
    (sd3 : SessionData)
    (h3ans : sd3.session.answers = sd.session.answers ++ [ans])
    (h3asked : sd3.asked_questions = sd.asked_questions ++ [cq])
    (h3rem : sd3.remaining_questions = sd.remaining_questions) :
    ∀ sd4 oq, determineNextAction bank sd3 now = (sd4, false, oq) →
      InvSD sd4 := by
  obtain ⟨hnodup, hsub, hcur⟩ := hinv
  obtain ⟨hcqans, hrem⟩ := hcur cq hq
  have hids3 : answerIdsOf sd3 = answerIdsOf sd ++ [cq.question_id] := by
    simp [answerIdsOf, h3ans, hansid]
  have hask3 : askedIdsOf sd3 = askedIdsOf sd ++ [cq.question_id] := by
    simp [askedIdsOf, h3asked]
  have hnodup3 : (answerIdsOf sd3).Nodup := by
    rw [hids3]
    refine List.Nodup.append hnodup (List.nodup_singleton _) ?_
    intro i hi hi'
    simp only [List.mem_singleton] at hi'
    exact hcqans (hi' ▸ hi)
  have hsub3 : ∀ i ∈ answerIdsOf sd3, i ∈ askedIdsOf sd3 := by
    intro i hi
    rw [hids3] at hi
    rw [hask3]
    rcases List.mem_append.1 hi with hi | hi
    · exact List.mem_append.2 (Or.inl (hsub i hi))
    · exact List.mem_append.2 (Or.inr hi)
  intro sd4 oq hdet
  unfold determineNextAction at hdet
  split_ifs at hdet with h1 h2 h3
  · exact absurd (congrArg (fun p => p.2.1) hdet) (by simp)
  · exact absurd (congrArg (fun p => p.2.1) hdet) (by simp)
  · exact absurd (congrArg (fun p => p.2.1) hdet) (by simp)
  · revert hdet
    cases hsel : selectNextQuestion bank sd3 with
    | mk oq' nd =>
      cases oq' with
      | none => intro hdet; exact absurd (congrArg (fun p => p.2.1) hdet) (by simp)
      | some q =>
        intro hdet
        have hqnotasked : q.question_id ∉ askedIdsOf sd3 := by
          rcases selectNextQuestion_sources bank sd3 q nd hsel with h | h
          · unfold availablePool at h
            have := List.of_mem_filter h
            simpa [askedIdsOf] using this
          · rw [h3rem] at h
            obtain ⟨hna, hnc⟩ := hrem q h
            rw [hask3]
            simp only [List.mem_append, List.mem_singleton]
            rintro (hh | hh)
            · exact hna hh
            · exact hnc hh
        simp only [Prod.mk.injEq] at hdet
        obtain ⟨hsd4, -, -⟩ := hdet
        have h4ans : answerIdsOf sd4 = answerIdsOf sd3 := by
          rw [← hsd4]; rfl
        have h4ask : askedIdsOf sd4 = askedIdsOf sd3 := by
          rw [← hsd4]; rfl
        have h4cur : sd4.session.current_question = some q := by
          rw [← hsd4]
        have h4rem : sd4.remaining_questions = sd3.remaining_questions.filter
            (fun r => decide (r.question_id ≠ q.question_id)) := by
          rw [← hsd4]
        refine ⟨h4ans ▸ hnodup3, ?_, ?_⟩
        · intro i hi
          rw [h4ans] at hi
          rw [h4ask]
          exact hsub3 i hi
        · intro q0 hq0
          rw [h4cur] at hq0
          cases Option.some.inj hq0
          constructor
          · rw [h4ans]
            intro hmem
            exact hqnotasked (hsub3 _ hmem)
          · intro r hrmem
            rw [h4rem] at hrmem
            have hr1 : r ∈ sd3.remaining_questions :=
              List.mem_of_mem_filter hrmem
            have hr2 := List.of_mem_filter hrmem
            rw [h3rem] at hr1
            obtain ⟨hna, hnc⟩ := hrem r hr1
            constructor
            · rw [h4ask, hask3]
              simp only [List.mem_append, List.mem_singleton]
              rintro (hh | hh)
              · exact hna hh
              · exact hnc hh
            · simpa using hr2

/-- `submit_answer` preserves the per-session invariant across the whole
registry: error paths leave the state unchanged, completion removes the
session, and continuation stores the updated session data, whose invariant
follows from `invSD_step`. -/
theorem submitAnswer_preserves_InvSD (reSearch : String → String → Bool)
    (sim : String → String → ℚ) (st : EngineState) (sid a : String)
    (t : Int) (c : Option String) (now : ℚ)
    (hall : ∀ sid' sd', lookupA st.active_sessions sid' = some sd' →
      InvSD sd') :
    ∀ sid' sd',
      lookupA (submitAnswer reSearch sim st sid a t c now).1.active_sessions
        sid' = some sd' → InvSD sd' := by
  intro sid' sd' hl
  unfold submitAnswer at hl
  cases hsd : lookupA st.active_sessions sid with
  | none => simp only [hsd] at hl; exact hall _ _ hl
  | some sd =>
    simp only [hsd] at hl
    cases hq : sd.session.current_question with
    | none => simp only [hq] at hl; exact hall _ _ hl
    | some cq =>
      simp only [hq] at hl
      cases han : analyzeAnswerIntegrity reSearch st.monitor sid
          (buildAnswer sim cq a t c now) cq.text with
      | error e => simp only [han] at hl; exact hall _ _ hl
      | ok pr =>
        obtain ⟨mon', metrics⟩ := pr
        simp only [han] at hl
        rcases hC : determineNextAction st.bank
            (updateSessionData sd cq (buildAnswer sim cq a t c now) t metrics)
            now with ⟨sd4, complete, oq⟩
        simp only [hC] at hl
        cases complete with
        | true =>
          simp at hl
          by_cases hss : sid' = sid
          · subst hss
            rw [lookupA_removeA_self] at hl
            exact absurd hl (by simp)
          · rw [lookupA_removeA_ne _ _ _ hss,
              lookupA_setA_ne _ _ _ _ hss] at hl
            exact hall _ _ hl
        | false =>
          simp at hl
          by_cases hss : sid' = sid
          · subst hss
            rw [lookupA_setA_self] at hl
            have hsd4 : sd' = sd4 := by
              simpa using hl.symm
            subst hsd4
            exact invSD_step st.bank sd cq now
              (buildAnswer sim cq a t c now) hq rfl (hall _ sd hsd)
              (updateSessionData sd cq (buildAnswer sim cq a t c now) t
                metrics) rfl rfl rfl sd' oq hC
          · rw [lookupA_setA_ne _ _ _ _ hss] at hl
            exact hall _ _ hl

/-- A freshly started session satisfies the invariant as soon as its
initial question set has pairwise-distinct ids. -/
theorem invSD_newSessionData (session_id candidate_id job_id : String)
    (now : ℚ) (initialQuestions : List Question)
    (hnodup : (initialQuestions.map (·.question_id)).Nodup) :
    InvSD (newSessionData session_id candidate_id job_id now
      initialQuestions) := by
  cases initialQuestions with
  | nil =>
    refine ⟨List.nodup_nil, ?_, ?_⟩
    · intro i hi; exact absurd hi (by simp [answerIdsOf, newSessionData])
    · intro q hq
      exact absurd hq (by simp [newSessionData])
  | cons q0 rest =>
    simp only [List.map_cons, List.nodup_cons] at hnodup
    refine ⟨List.nodup_nil, ?_, ?_⟩
    · intro i hi; exact absurd hi (by simp [answerIdsOf, newSessionData])
    · intro q hq
      have hq0 : q0 = q := by
        simpa [newSessionData] using hq
      cases hq0
      constructor
      · simp [answerIdsOf, newSessionData]
      · intro r hr
        have hr' : r ∈ rest := by
          simpa [newSessionData] using hr
      -- an id from the tail cannot equal the head's id
        have hne : r.question_id ≠ q0.question_id := by
          intro hh
          exact hnodup.1 (hh ▸ List.mem_map_of_mem (·.question_id) hr')
        constructor
        · simpa [askedIdsOf, newSessionData] using hne
        · exact hne

/-- `start_interview_session` preserves the registry-wide invariant when
the generated balanced set is duplicate-free. -/
theorem startInterviewSession_preserves_InvSD (st : EngineState)
    (sid cid jid : String) (cats : Option (List String)) (now : ℚ)
    (hnodup : ((getBalancedQuestionSet st.bank minQuestionsPerSession
        (resolveTargetCategories cats)).map (·.question_id)).Nodup)
    (hall : ∀ sid' sd', lookupA st.active_sessions sid' = some sd' →
      InvSD sd') :
    ∀ sid' sd',
      lookupA (startInterviewSession st sid cid jid cats now).1.active_sessions
        sid' = some sd' → InvSD sd' := by
  intro sid' sd' hl
  unfold startInterviewSession at hl
  simp only at hl
  by_cases hss : sid' = sid
  · subst hss
    rw [lookupA_setA_self] at hl
    have : sd' = newSessionData sid' cid jid now
        (getBalancedQuestionSet st.bank minQuestionsPerSession
          (resolveTargetCategories cats)) := by
      simpa using hl.symm
    subst this
    exact invSD_newSessionData _ _ _ _ _ hnodup
  · rw [lookupA_setA_ne _ _ _ _ hss] at hl
    exact hall _ _ hl

/-- States of the engine reachable through its public surface
(`start_interview_session` and `submit_answer`), starting from an empty
registry over an arbitrary question bank. -/
inductive EngineReachable (reSearch : String → String → Bool)
    (sim : String → String → ℚ) : EngineState → Prop
  | init (bank : List Question) :
      EngineReachable reSearch sim ⟨bank, [], []⟩
  | start (st : EngineState) (sid cid jid : String)
      (cats : Option (List String)) (now : ℚ) :
      EngineReachable reSearch sim st →
      EngineReachable reSearch sim
        (startInterviewSession st sid cid jid cats now).1
  | submit (st : EngineState) (sid a : String) (t : Int)
      (c : Option String) (now : ℚ) :
      EngineReachable reSearch sim st →
      EngineReachable reSearch sim
        (submitAnswer reSearch sim st sid a t c now).1

/-- Reachable states whose sessions were all started with a duplicate-free
initial balanced question set (automatic with distinct target categories;
see the corrected claim C6). -/
inductive EngineReachableDistinct (reSearch : String → String → Bool)
    (sim : String → String → ℚ) : EngineState → Prop
  | init (bank : List Question) :
      EngineReachableDistinct reSearch sim ⟨bank, [], []⟩
  | start (st : EngineState) (sid cid jid : String)
      (cats : Option (List String)) (now : ℚ) :
      EngineReachableDistinct reSearch sim st →
      ((getBalancedQuestionSet st.bank minQuestionsPerSession
        (resolveTargetCategories cats)).map (·.question_id)).Nodup →
      EngineReachableDistinct reSearch sim
        (startInterviewSession st sid cid jid cats now).1
  | submit (st : EngineState) (sid a : String) (t : Int)
      (c : Option String) (now : ℚ) :
      EngineReachableDistinct reSearch sim st →
      EngineReachableDistinct reSearch sim
        (submitAnswer reSearch sim st sid a t c now).1

/-- Every session of a distinct-start reachable state satisfies the
engine invariant. -/
theorem engineReachableDistinct_InvSD (reSearch : String → String → Bool)
    (sim : String → String → ℚ) (st : EngineState)
    (h : EngineReachableDistinct reSearch sim st) :
    ∀ sid sd, lookupA st.active_sessions sid = some sd → InvSD sd := by
  induction h with
  | init bank => intro sid sd hl; exact absurd hl (by simp [lookupA])
  | start st sid cid jid cats now _ hnodup ih =>
    exact startInterviewSession_preserves_InvSD st sid cid jid cats now
      hnodup ih
  | submit st sid a t c now _ ih =>
    exact submitAnswer_preserves_InvSD reSearch sim st sid a t c now ih

/-! ### Supporting lemmas for the per-call theorems -/

/-- Number of tiers between two difficulty levels. -/
def tierDistance (d e : DifficultyLevel) : Nat :=
  ((d.index : ℤ) - (e.index : ℤ)).natAbs

theorem adjustDifficulty_cases (cur : DifficultyLevel) (avg : ℚ) :
    adjustDifficulty cur avg = cur ∨
    adjustDifficulty cur avg = cur.stepUp ∨
    adjustDifficulty cur avg = cur.stepDown := by
  unfold adjustDifficulty
  split_ifs with h1 h2
  · exact Or.inr (Or.inl rfl)
  · exact Or.inr (Or.inr rfl)
  · exact Or.inl rfl

theorem tierDistance_self (d : DifficultyLevel) : tierDistance d d = 0 := by
  cases d <;> decide

theorem tierDistance_stepUp (d : DifficultyLevel) :
    tierDistance d d.stepUp ≤ 1 := by
  cases d <;> decide

theorem tierDistance_stepDown (d : DifficultyLevel) :
    tierDistance d d.stepDown ≤ 1 := by
  cases d <;> decide

theorem mem_difficultiesOrder (d : DifficultyLevel) :
    d ∈ difficultiesOrder := by
  cases d <;> decide

/-- The difficulty attached by `_select_next_question` is either untouched
(fallback or no selection) or the adjusted one (pool path). -/
theorem selectNextQuestion_difficulty (bank : List Question)
    (sd : SessionData) :
    (selectNextQuestion bank sd).2 = sd.session.difficulty_level ∨
    (selectNextQuestion bank sd).2 =
      adjustDifficulty sd.session.difficulty_level
        (recentAverage sd.performance_history) := by
  unfold selectNextQuestion
  cases hph : sd.performance_history with
  | nil => exact Or.inl rfl
  | cons e es =>
    simp only
    cases hpool : availablePool bank sd
        (adjustDifficulty sd.session.difficulty_level
          (recentAverage (e :: es))) with
    | cons q qs => exact Or.inr rfl
    | nil =>
      cases sd.remaining_questions with
      | nil => exact Or.inl rfl
      | cons r rs => exact Or.inl rfl

/-- The session difficulty after `_determine_next_action` is the previous
one or the adjusted one. -/
theorem determineNextAction_difficulty (bank : List Question)
    (sd : SessionData) (now : ℚ) (sd4 : SessionData) (b : Bool)
    (oq : Option Question)
    (h : determineNextAction bank sd now = (sd4, b, oq)) :
    sd4.session.difficulty_level = sd.session.difficulty_level ∨
    sd4.session.difficulty_level =
      adjustDifficulty sd.session.difficulty_level
        (recentAverage sd.performance_history) := by
  unfold determineNextAction at h
  split_ifs at h
  · simp only [Prod.mk.injEq] at h
    exact Or.inl (by rw [← h.1])
  · simp only [Prod.mk.injEq] at h
    exact Or.inl (by rw [← h.1])
  · simp only [Prod.mk.injEq] at h
    exact Or.inl (by rw [← h.1])
  · revert h
    cases hsel : selectNextQuestion bank sd with
    | mk oq' nd =>
      cases oq' with
      | none =>
        intro h
        simp only [Prod.mk.injEq] at h
        exact Or.inl (by rw [← h.1])
      | some q =>
        intro h
        simp only [Prod.mk.injEq] at h
        obtain ⟨hsd4, -, -⟩ := h
        have hd : sd4.session.difficulty_level = nd := by rw [← hsd4]
        rcases selectNextQuestion_difficulty bank sd with hh | hh <;>
          rw [hsel] at hh <;> simp only at hh
        · exact Or.inl (by rw [hd]; exact hh)
        · exact Or.inr (by rw [hd]; exact hh)

/-- Band-termination shape of `_determine_next_action`: past the minimum
count, within the maximum count and duration, an extreme recent average
ends the session. -/
theorem determineNextAction_band_complete (bank : List Question)
    (sd : SessionData) (now : ℚ)
    (hmax : sd.performance_history.length < maxQuestionsPerSession)
    (htime : now - sd.session.started_at ≤ sessionTimeout)
    (hmin : minQuestionsPerSession ≤ sd.performance_history.length)
    (hband : recentAverage sd.performance_history < 30 ∨
      90 < recentAverage sd.performance_history) :
    determineNextAction bank sd now = (sd, true, none) := by
  unfold determineNextAction
  rw [if_neg (by omega), if_neg (by exact not_lt.mpr htime),
    if_pos ⟨hmin, hband⟩]

/-- The question-complexity estimate is at least 1 (the fold starts at 1
and only ever takes maxima). -/
theorem one_le_estimateQuestionComplexity (q : String) :
    1 ≤ estimateQuestionComplexity q := by
  unfold estimateQuestionComplexity
  have hstep : ∀ (l : List (Nat × List String)) (init : Nat),
      init ≤ l.foldl
        (fun maxComplexity ci =>
          if ci.2.any (fun ind => strContains (strLower q) ind) then
            max maxComplexity ci.1
          else maxComplexity)
        init := by
    intro l
    induction l with
    | nil => intro init; exact le_refl _
    | cons x xs ih =>
      intro init
      simp only [List.foldl]
      refine le_trans ?_ (ih _)
      split_ifs
      · exact Nat.le_max_left _ _
      · exact le_refl _
  exact hstep complexityIndicators 1

/-- The timing-integrity component never drops below 45: the only
deductions that can fire together are the 40-point fast (or 30-point slow)
penalty and the 15-point complexity-deviation penalty. -/
theorem timing_score_ge_45 (t : Int) (q : String) :
    45 ≤ (analyzeTimingIntegrity t q).score := by
  unfold analyzeTimingIntegrity
  simp only [timeThresholds_suspiciously_fast, timeThresholds_min_answer_time,
    timeThresholds_suspiciously_slow, timeThresholds_max_answer_time]
  split_ifs <;>
    first
      | (exfalso; omega)
      | (exact le_max_of_le_right (by norm_num))

/-- Average of the last up-to-3 scores, as a function of the raw score
list. -/
def recentScoreAverage (scores : List ℚ) : ℚ :=
  let recent := takeLast 3 scores
  recent.sum / (recent.length : ℚ)

theorem recentAverage_eq_scores (history : List PerfEntry) :
    recentAverage history = recentScoreAverage (history.map (·.score)) := by
  unfold recentAverage recentScoreAverage takeLast
  simp [List.map_drop]

/-! ### Concrete scenarios

The external collaborators are instantiated with `reNone` (no regex pattern
matches) and `simZero`.  On every answer and question text used below,
none of the monitor's regular-expression patterns (empty/very short/generic
answers, repetition, formatting anomalies, code indicators) matches the
text, so `reNone` agrees with a real regex engine on these inputs; no
conceptual question carries an expected answer, so `simZero` is never
consulted. -/

def reNone : String → String → Bool := fun _ _ => false

def simZero : String → String → ℚ := fun _ _ => 0

/-- Multiple-choice question with expected keywords "alpha,beta". -/
def mkMC (i tx cat : String) (d : DifficultyLevel) : Question :=
  { question_id := i
    text := tx
    qtype := .multiple_choice
    difficulty := d
    category := cat
    topics := []
    expected_answer := some "alpha,beta"
    code_template := none
    time_limit := 10
    points := 10 }

def qMLbeg : Question := mkMC "A" "Explain topic one." "ml" .beginner
def qMLint : Question := mkMC "B" "Explain topic two." "ml" .intermediate
def qXbeg : Question := mkMC "C" "Explain topic three." "x" .beginner
def qX2beg : Question := mkMC "D" "Explain topic four." "x2" .beginner

/-- A bank with no advanced or expert questions. -/
def bank3 : List Question := [qMLbeg, qMLint, qXbeg]

def bank4 : List Question := [qMLbeg, qMLint, qXbeg, qX2beg]

/-- C6 trace: duplicated target categories duplicate questions in the
balanced initial set; the fallback path then re-asks question "A". -/
def c6Start : EngineState :=
  (startInterviewSession ⟨bank3, [], []⟩ "s" "cand" "job"
    (some ["ml", "ml"]) 0).1

def c6After1 : EngineState :=
  (submitAnswer reNone simZero c6Start "s" "alpha answer" 100 none 100).1

def c6After2 : EngineState :=
  (submitAnswer reNone simZero c6After1 "s" "alpha answer" 100 none 200).1

def c6After3 : EngineState :=
  (submitAnswer reNone simZero c6After2 "s" "alpha answer" 100 none 300).1

/-- C1 trace: three answers with distinct per-answer integrity scores
(the second is suspiciously fast, the second and third repeat the first's
text). -/
def c1Start : EngineState :=
  (startInterviewSession ⟨bank4, [], []⟩ "s" "cand" "job" (some ["ml"]) 0).1

def c1After1 : EngineState :=
  (submitAnswer reNone simZero c1Start "s" "Good sample answer one." 100
    none 100).1

def c1After2 : EngineState :=
  (submitAnswer reNone simZero c1After1 "s" "Good sample answer one." 3
    none 200).1

def c1After3 : EngineState :=
  (submitAnswer reNone simZero c1After2 "s" "Good sample answer one." 100
    none 300).1

/-- C4 trace: a perfect first answer (average 100 > 85) in a bank with no
advanced questions: the pool at the raised tier is empty, the fallback
fires, and the difficulty stays `intermediate`. -/
def c4Start : EngineState :=
  (startInterviewSession ⟨bank3, [], []⟩ "s" "cand" "job" (some ["ml"]) 0).1

def c4Sub1 : EngineState × Except String SubmitResult :=
  submitAnswer reNone simZero c4Start "s" "alpha beta answer" 100 none 100

/-- C2 counterexample state: the engine registry holds session "s" with a
pending question, but the monitor registry has no entry for it (the
session-synchronisation assumed by `submit_answer` is broken). -/
def c2State : EngineState :=
  ⟨bank3, [], [("s", newSessionData "s" "cand" "job" 0 [qMLbeg, qMLint])]⟩

/-- C3 scenario: a session that has already recorded four zero-score
answers; the fifth zero-score submission reaches the minimum question count
with a failing recent average. -/
def c3Session : InterviewSession :=
  { session_id := "s"
    candidate_id := "cand"
    job_id := "job"
    started_at := 0
    current_question := some qMLint
    answers := []
    difficulty_level := .beginner
    integrity_score := 100
    compliance_status := "compliant"
    is_active := true }

def c3Hist : List PerfEntry :=
  [⟨"A", 0, "beginner", "ml", 100, 100⟩,
   ⟨"C", 0, "beginner", "x", 100, 100⟩,
   ⟨"D", 0, "beginner", "x2", 100, 100⟩,
   ⟨"E", 0, "beginner", "x2", 100, 100⟩]

def c3Sd : SessionData :=
  { session := c3Session
    remaining_questions := []
    asked_questions := [qMLbeg, qXbeg, qX2beg]
    performance_history := c3Hist
    category_performance := []
    integrity_metrics := [] }

def c3St : EngineState :=
  ⟨bank4, initializeSessionMonitoring [] "s" "cand" 0, [("s", c3Sd)]⟩

/-! ### Claim theorems -/

set_option maxRecDepth 100000

unseal Rat.mul Rat.inv Rat.add Rat.sub

/-- The deviation penalty always fires for sub-5-second answers: the
expected time is at least 60 seconds, so the actual time differs from it by
more than 80%. -/
theorem timing_deviation_fires (t : Int) (q : String) (h : t < 5) :
    ((estimateQuestionComplexity q : ℚ) * 60) * (8/10) <
      |(t : ℚ) - (estimateQuestionComplexity q : ℚ) * 60| := by
  have hc : (1 : ℚ) ≤ (estimateQuestionComplexity q : ℚ) := by
    exact_mod_cast one_le_estimateQuestionComplexity q
  have ht : (t : ℚ) < 5 := by exact_mod_cast h
  have hneg : (t : ℚ) - (estimateQuestionComplexity q : ℚ) * 60 < 0 := by
    nlinarith
  rw [abs_of_neg hneg]
  nlinarith

/-- C5 (counterexample): at `time_taken = 3` the timing component loses
only the 40-point fast penalty (plus the 15-point complexity-deviation
penalty), not an additional 20 points: the `timing_too_fast` flag never
appears and the score is 45, not 25. -/
theorem c5_under_five_seconds_counterexample :
    analyzeTimingIntegrity 3 "Explain the concept." =
      ⟨45, ["timing_suspiciously_fast", "timing_unexpected_for_complexity"]⟩ ∧
    "timing_too_fast" ∉ (analyzeTimingIntegrity 3 "Explain the concept.").flags ∧
    (analyzeTimingIntegrity 3 "Explain the concept.").score ≠ 100 - 40 - 20 - 15 := by
  refine ⟨by decide, by decide, by decide⟩

/-- C5 (amended): for every answer below the 5-second soft floor the timing
component loses exactly 40 points for the 10-second suspiciously-fast floor
and 15 points for the always-firing complexity deviation; the additional
20-point branch is unreachable (it sits in an `elif` behind the weaker
10-second guard), so the result is exactly score 45 with the two flags. -/
theorem c5_timing_under_soft_floor (t : Int) (q : String)
    (h : t < timeThresholds_min_answer_time) :
    analyzeTimingIntegrity t q =
      ⟨45, ["timing_suspiciously_fast", "timing_unexpected_for_complexity"]⟩ := by
  have h5 : t < 5 := by simpa [timeThresholds_min_answer_time] using h
  simp only [analyzeTimingIntegrity]
  rw [if_pos (show t < timeThresholds_suspiciously_fast by
        simp only [timeThresholds_suspiciously_fast]; omega),
    if_neg (show ¬ t > timeThresholds_suspiciously_slow by
        simp only [timeThresholds_suspiciously_slow]; omega),
    if_neg (show ¬ t > timeThresholds_max_answer_time by
        simp only [timeThresholds_max_answer_time]; omega),
    if_pos (timing_deviation_fires t q h5)]
  have : max (0 : ℚ) (100 - 40 - 15) = 45 := by norm_num
  simp [this]

/-- C5 (witness): the amended statement at `time_taken = 2`. -/
theorem c5_timing_under_soft_floor_witness :
    analyzeTimingIntegrity 2 "What is X?" =
      ⟨45, ["timing_suspiciously_fast", "timing_unexpected_for_complexity"]⟩ :=
  c5_timing_under_soft_floor 2 "What is X?" (by decide)

/-- C1: after three submissions whose per-answer overall integrity scores
are 100, 70 and 265/3, the engine's session integrity score is the latest
value 265/3, while the mean of the per-answer scores — which the claim
(and the monitor's own `current_integrity_score`) prescribes — is 775/9;
the two differ, so `submit_answer` stores the latest score, not the mean. -/
theorem c1_session_integrity_latest_not_mean :
    (lookupA c1After3.active_sessions "s").map
        (fun sd => (sd.session.integrity_score,
          sd.integrity_metrics.map (·.overall_integrity_score))) =
      some (265/3, [100, 70, 265/3]) ∧
    (lookupA c1After3.monitor "s").map (·.current_integrity_score) =
      some (775/9) ∧
    ((100 : ℚ) + 70 + 265/3) / 3 = 775/9 ∧
    (265 : ℚ)/3 ≠ 775/9 := by
  refine ⟨by decide, by decide, by decide, by decide⟩

/-- C2 (counterexample): on a state whose engine registry holds session "s"
with a pending question but whose monitor registry lacks it, the integrity
analysis raises and `submit_answer` aborts with that error — no result, no
neutral/default `IntegrityMetrics`, and no state change. -/
theorem c2_integrity_failure_aborts_counterexample :
    submitAnswer reNone simZero c2State "s" "hello there friend" 60 none 10 =
      (c2State, .error "Session s not found in monitoring data") ∧
    (lookupA c2State.active_sessions "s").map
      (fun sd => sd.session.current_question.isSome) = some true := by
  refine ⟨by decide, by decide⟩

/-- C2 (amended): a failure inside the integrity analysis — the session id
missing from the monitor's records, the one failure the analysis can raise
— propagates out of `submit_answer`: the call returns the monitor's error,
the state is unchanged, no answer is appended and no default metric with an
analysis-failure flag is produced (there is no handler around the analysis
call). -/
theorem c2_integrity_failure_aborts (reSearch : String → String → Bool)
    (sim : String → String → ℚ) (st : EngineState) (sid a : String)
    (t : Int) (c : Option String) (now : ℚ) (sd : SessionData) (q : Question)
    (hsd : lookupA st.active_sessions sid = some sd)
    (hq : sd.session.current_question = some q)
    (hmon : lookupA st.monitor sid = none) :
    submitAnswer reSearch sim st sid a t c now =
      (st, .error ("Session " ++ sid ++ " not found in monitoring data")) := by
  simp only [submitAnswer, hsd, hq, analyzeAnswerIntegrity, hmon]

/-- C2 (witness): the amended statement at a concrete desynchronised
state. -/
theorem c2_integrity_failure_aborts_witness :
    submitAnswer reNone simZero
        ⟨bank3, [], [("w", newSessionData "w" "c" "j" 0 [qMLbeg])]⟩
        "w" "any text" 50 none 5 =
      (⟨bank3, [], [("w", newSessionData "w" "c" "j" 0 [qMLbeg])]⟩,
        .error ("Session " ++ "w" ++ " not found in monitoring data")) :=
  c2_integrity_failure_aborts reNone simZero _ "w" "any text" 50 none 5
    (newSessionData "w" "c" "j" 0 [qMLbeg]) qMLbeg (by decide) (by decide)
    (by decide)

theorem adjustDifficulty_up (cur : DifficultyLevel) (avg : ℚ)
    (h : 85 < avg) (hne : cur ≠ .expert) :
    adjustDifficulty cur avg = cur.stepUp := by
  have hidx : cur.index < 3 := by
    cases cur <;> first | decide | exact absurd rfl hne
  unfold adjustDifficulty
  rw [if_pos ⟨h, hidx⟩]

theorem adjustDifficulty_down (cur : DifficultyLevel) (avg : ℚ)
    (h : avg < 40) (hne : cur ≠ .beginner) :
    adjustDifficulty cur avg = cur.stepDown := by
  have hidx : 0 < cur.index := by
    cases cur <;> first | decide | exact absurd rfl hne
  unfold adjustDifficulty
  rw [if_neg (fun hh => absurd hh.1 (by linarith)), if_pos ⟨h, hidx⟩]

theorem adjustDifficulty_neutral (cur : DifficultyLevel) (avg : ℚ)
    (h1 : 40 ≤ avg) (h2 : avg ≤ 85) : adjustDifficulty cur avg = cur := by
  unfold adjustDifficulty
  rw [if_neg (fun hh => absurd hh.1 (by linarith)),
    if_neg (fun hh => absurd hh.1 (by linarith))]

theorem adjustDifficulty_top (avg : ℚ) (h : 85 < avg) :
    adjustDifficulty .expert avg = .expert := by
  unfold adjustDifficulty
  rw [if_neg (fun hh => absurd hh.2 (by decide)),
    if_neg (fun hh => absurd hh.1 (by linarith))]

theorem adjustDifficulty_bottom (avg : ℚ) (h : avg < 40) :
    adjustDifficulty .beginner avg = .beginner := by
  unfold adjustDifficulty
  rw [if_neg (fun hh => absurd hh.1 (by linarith)),
    if_neg (fun hh => absurd hh.2 (by decide))]

/-- On a continuing call, the session difficulty becomes the adjusted tier
exactly when the asked-filtered pool at the adjusted tier is non-empty;
otherwise (fallback to the remaining initial set) it is unchanged. -/
theorem determineNextAction_difficulty_pool (bank : List Question)
    (sd : SessionData) (now : ℚ) (sd4 : SessionData) (oq : Option Question)
    (h : determineNextAction bank sd now = (sd4, false, oq)) :
    (availablePool bank sd
        (adjustDifficulty sd.session.difficulty_level
          (recentAverage sd.performance_history)) ≠ [] ∧
      sd4.session.difficulty_level =
        adjustDifficulty sd.session.difficulty_level
          (recentAverage sd.performance_history)) ∨
    (availablePool bank sd
        (adjustDifficulty sd.session.difficulty_level
          (recentAverage sd.performance_history)) = [] ∧
      sd4.session.difficulty_level = sd.session.difficulty_level) := by
  unfold determineNextAction at h
  split_ifs at h
  · exact absurd (congrArg (fun p => p.2.1) h) (by simp)
  · exact absurd (congrArg (fun p => p.2.1) h) (by simp)
  · exact absurd (congrArg (fun p => p.2.1) h) (by simp)
  · revert h
    cases hph : sd.performance_history with
    | nil =>
      intro h
      unfold selectNextQuestion at h
      rw [hph] at h
      exact absurd (congrArg (fun p => p.2.1) h) (by simp)
    | cons e es =>
      intro h
      unfold selectNextQuestion at h
      rw [hph] at h
      simp only at h
      cases hpool : availablePool bank sd
          (adjustDifficulty sd.session.difficulty_level
            (recentAverage (e :: es))) with
      | cons q qs =>
        rw [hpool] at h
        simp only [Prod.mk.injEq] at h
        obtain ⟨hsd4, -, -⟩ := h
        refine Or.inl ⟨List.cons_ne_nil q qs, ?_⟩
        rw [← hsd4]
      | nil =>
        rw [hpool] at h
        cases hr : sd.remaining_questions with
        | nil =>
          rw [hr] at h
          exact absurd (congrArg (fun p => p.2.1) h) (by simp)
        | cons r rs =>
          rw [hr] at h
          simp only [Prod.mk.injEq] at h
          obtain ⟨hsd4, -, -⟩ := h
          refine Or.inr ⟨rfl, ?_⟩
          rw [← hsd4]

/-- C4 (amended): for every continuing `_determine_next_action` call, the
difficulty advances exactly one tier when the recent average exceeds 85,
the session is below the expert tier AND the asked-filtered question pool
at the raised tier is non-empty; symmetrically one tier down below 40; and
it is unchanged in the neutral band, at the clamped extremes, or whenever
the pool at the adjusted tier is empty (the fallback path, which the
original claim overlooked). -/
theorem c4_difficulty_adjustment (bank : List Question) (sd : SessionData)
    (now : ℚ)
    (hcont : (determineNextAction bank sd now).2.1 = false) :
    (85 < recentAverage sd.performance_history →
      sd.session.difficulty_level ≠ .expert →
      availablePool bank sd sd.session.difficulty_level.stepUp ≠ [] →
      (determineNextAction bank sd now).1.session.difficulty_level =
        sd.session.difficulty_level.stepUp) ∧
    (recentAverage sd.performance_history < 40 →
      sd.session.difficulty_level ≠ .beginner →
      availablePool bank sd sd.session.difficulty_level.stepDown ≠ [] →
      (determineNextAction bank sd now).1.session.difficulty_level =
        sd.session.difficulty_level.stepDown) ∧
    (40 ≤ recentAverage sd.performance_history →
      recentAverage sd.performance_history ≤ 85 →
      (determineNextAction bank sd now).1.session.difficulty_level =
        sd.session.difficulty_level) ∧
    (availablePool bank sd
        (adjustDifficulty sd.session.difficulty_level
          (recentAverage sd.performance_history)) = [] →
      (determineNextAction bank sd now).1.session.difficulty_level =
        sd.session.difficulty_level) ∧
    (85 < recentAverage sd.performance_history →
      sd.session.difficulty_level = .expert →
      (determineNextAction bank sd now).1.session.difficulty_level =
        sd.session.difficulty_level) ∧
    (recentAverage sd.performance_history < 40 →
      sd.session.difficulty_level = .beginner →
      (determineNextAction bank sd now).1.session.difficulty_level =
        sd.session.difficulty_level) := by
  rcases h : determineNextAction bank sd now with ⟨sd4, b, oq⟩
  rw [h] at hcont
  simp only at hcont
  subst hcont
  have hmaster := determineNextAction_difficulty_pool bank sd now sd4 oq h
  simp only [h]
  refine ⟨?_, ?_, ?_, ?_, ?_, ?_⟩
  · intro havg hne hpool
    rw [adjustDifficulty_up _ _ havg hne] at hmaster
    rcases hmaster with ⟨-, hd⟩ | ⟨hempty, -⟩
    · exact hd
    · exact absurd hempty hpool
  · intro havg hne hpool
    rw [adjustDifficulty_down _ _ havg hne] at hmaster
    rcases hmaster with ⟨-, hd⟩ | ⟨hempty, -⟩
    · exact hd
    · exact absurd hempty hpool
  · intro h40 h85
    rw [adjustDifficulty_neutral _ _ h40 h85] at hmaster
    rcases hmaster with ⟨-, hd⟩ | ⟨-, hd⟩ <;> exact hd
  · intro hempty
    rcases hmaster with ⟨hne, -⟩ | ⟨-, hd⟩
    · exact absurd hempty hne
    · exact hd
  · intro havg he
    rw [he, adjustDifficulty_top _ havg] at hmaster
    rw [he]
    rcases hmaster with ⟨-, hd⟩ | ⟨-, hd⟩ <;> rw [hd]
  · intro havg hb
    rw [hb, adjustDifficulty_bottom _ havg] at hmaster
    rw [hb]
    rcases hmaster with ⟨-, hd⟩ | ⟨-, hd⟩ <;> rw [hd]

/-- C4 (counterexample): a continuing call with recent average 100 (> 85)
on an intermediate session leaves the difficulty at `intermediate`: the
bank holds no advanced question, so the selection falls back to the
remaining initial set without committing the raised tier. -/
theorem c4_difficulty_not_advanced_counterexample :
    c4Sub1.2.map (·.session_complete) = .ok false ∧
    (lookupA c4Sub1.1.active_sessions "s").map
        (fun sd => (sd.session.difficulty_level,
          recentAverage sd.performance_history)) =
      some (.intermediate, 100) ∧
    (85 : ℚ) < 100 ∧ DifficultyLevel.intermediate ≠ .expert := by
  refine ⟨by decide, by decide, by norm_num, by decide⟩

/-- Session data for the C4/C10 witnesses: one perfect intermediate answer
recorded, an advanced question available in the bank. -/
def qAdv : Question := mkMC "E" "Explain topic five." "ml" .advanced

def bankW : List Question := [qAdv]

def sdW : SessionData :=
  { session :=
      { session_id := "s"
        candidate_id := "c"
        job_id := "j"
        started_at := 0
        current_question := some qMLint
        answers := []
        difficulty_level := .intermediate
        integrity_score := 100
        compliance_status := "compliant"
        is_active := true }
    remaining_questions := []
    asked_questions := [qMLint]
    performance_history := [⟨"B", 100, "intermediate", "ml", 100, 100⟩]
    category_performance := [("ml", [100])]
    integrity_metrics := [] }

/-- C4 (witness): with a non-empty advanced pool and recent average 100 the
difficulty does advance one tier. -/
theorem c4_difficulty_adjustment_witness :
    (determineNextAction bankW sdW 0).2.1 = false ∧
    (determineNextAction bankW sdW 0).1.session.difficulty_level =
      DifficultyLevel.intermediate.stepUp := by
  refine ⟨by decide, ?_⟩
  exact (c4_difficulty_adjustment bankW sdW 0 (by decide)).1 (by decide)
    (by decide) (by decide)

/-- C6 (amended): in every engine state reachable through sessions whose
initial balanced question set is free of duplicate ids (in particular,
whenever the requested target categories are distinct), no two recorded
answers of a session share a question id. -/
theorem c6_no_repeated_question_ids (reSearch : String → String → Bool)
    (sim : String → String → ℚ) (st : EngineState)
    (h : EngineReachableDistinct reSearch sim st) (sid : String)
    (sd : SessionData)
    (hsd : lookupA st.active_sessions sid = some sd) :
    (sd.session.answers.map (·.question_id)).Nodup :=
  (engineReachableDistinct_InvSD reSearch sim st h sid sd hsd).1

/-- C6 (witness): a session started with distinct target categories keeps
distinct answered question ids after a submission. -/
theorem c6_no_repeated_question_ids_witness :
    (lookupA c1After1.active_sessions "s").isSome ∧
    (lookupA c1After1.active_sessions "s").elim True
      (fun sd => (sd.session.answers.map (·.question_id)).Nodup) := by
  refine ⟨by decide, ?_⟩
  have hreach : EngineReachableDistinct reNone simZero c1After1 :=
    .submit _ "s" "Good sample answer one." 100 none 100
      (.start _ "s" "cand" "job" (some ["ml"]) 0 (.init bank4) (by decide))
  cases hl : lookupA c1After1.active_sessions "s" with
  | none => exact trivial
  | some sd =>
    exact c6_no_repeated_question_ids reNone simZero c1After1 hreach "s" sd hl

/-- C6 (counterexample): with duplicated target categories the balanced
initial set repeats question "A"; after three submissions the reachable
state records two answers with question id "A", refuting the unrestricted
claim. -/
theorem c6_repeated_question_counterexample :
    EngineReachable reNone simZero c6After3 ∧
    (lookupA c6After3.active_sessions "s").map
      (fun sd => sd.session.answers.map (·.question_id)) =
      some ["A", "B", "A"] ∧
    ¬ (["A", "B", "A"] : List String).Nodup := by
  refine ⟨?_, by decide, by decide⟩
  exact .submit c6After2 "s" "alpha answer" 100 none 300
    (.submit c6After1 "s" "alpha answer" 100 none 200
      (.submit c6Start "s" "alpha answer" 100 none 100
        (.start ⟨bank3, [], []⟩ "s" "cand" "job" (some ["ml", "ml"]) 0
          (.init bank3))))

/-- C7: a single `submit_answer` call moves the session difficulty by at
most one adjacent tier, and the difficulty always remains a member of the
ordered four-tier set. -/
theorem c7_difficulty_one_tier_per_submission
    (reSearch : String → String → Bool) (sim : String → String → ℚ)
    (st : EngineState) (sid a : String) (t : Int) (c : Option String)
    (now : ℚ) (sd sd' : SessionData)
    (hpre : lookupA st.active_sessions sid = some sd)
    (hpost : lookupA
      (submitAnswer reSearch sim st sid a t c now).1.active_sessions sid =
      some sd') :
    sd'.session.difficulty_level ∈ difficultiesOrder ∧
    tierDistance sd.session.difficulty_level sd'.session.difficulty_level
      ≤ 1 := by
  refine ⟨mem_difficultiesOrder _, ?_⟩
  unfold submitAnswer at hpost
  simp only [hpre] at hpost
  cases hq : sd.session.current_question with
  | none =>
    simp only [hq] at hpost
    have he : sd = sd' := by
      rw [hpre] at hpost; exact Option.some.inj hpost
    cases he
    rw [tierDistance_self]
    exact Nat.zero_le 1
  | some cq =>
    simp only [hq] at hpost
    cases han : analyzeAnswerIntegrity reSearch st.monitor sid
        (buildAnswer sim cq a t c now) cq.text with
    | error e =>
      simp only [han] at hpost
      have he : sd = sd' := by
        rw [hpre] at hpost; exact Option.some.inj hpost
      cases he
      rw [tierDistance_self]
      exact Nat.zero_le 1
    | ok pr =>
      obtain ⟨mon', metrics⟩ := pr
      simp only [han] at hpost
      rcases hC : determineNextAction st.bank
          (updateSessionData sd cq (buildAnswer sim cq a t c now) t metrics)
          now with ⟨sd4, complete, oq⟩
      simp only [hC] at hpost
      cases complete with
      | true =>
        simp at hpost
        rw [lookupA_removeA_self] at hpost
        exact absurd hpost (by simp)
      | false =>
        simp at hpost
        rw [lookupA_setA_self] at hpost
        have h4 : sd' = sd4 := by simpa using hpost.symm
        cases h4
        have hdiff := determineNextAction_difficulty st.bank
          (updateSessionData sd cq (buildAnswer sim cq a t c now) t metrics)
          now sd' false oq hC
        have h3d : (updateSessionData sd cq (buildAnswer sim cq a t c now) t
            metrics).session.difficulty_level =
            sd.session.difficulty_level := rfl
        rcases hdiff with hh | hh
        · rw [hh, h3d, tierDistance_self]
          exact Nat.zero_le 1
        · rw [hh, h3d]
          rcases adjustDifficulty_cases sd.session.difficulty_level
              (recentAverage (updateSessionData sd cq
                (buildAnswer sim cq a t c now) t
                metrics).performance_history) with ha | ha | ha <;> rw [ha]
          · rw [tierDistance_self]
            exact Nat.zero_le 1
          · exact tierDistance_stepUp _
          · exact tierDistance_stepDown _

/-- C7 (witness): the bound at a concrete submission. -/
theorem c7_difficulty_one_tier_witness :
    (lookupA c6Start.active_sessions "s").isSome ∧
    (lookupA c6After1.active_sessions "s").isSome ∧
    ((lookupA c6Start.active_sessions "s").elim True fun sd =>
      (lookupA c6After1.active_sessions "s").elim True fun sd' =>
        sd'.session.difficulty_level ∈ difficultiesOrder ∧
        tierDistance sd.session.difficulty_level
          sd'.session.difficulty_level ≤ 1) := by
  refine ⟨by decide, by decide, ?_⟩
  cases hpre : lookupA c6Start.active_sessions "s" with
  | none => exact trivial
  | some sd =>
    cases hpost : lookupA c6After1.active_sessions "s" with
    | none => exact trivial
    | some sd' =>
      exact c7_difficulty_one_tier_per_submission reNone simZero c6Start
        "s" "alpha answer" 100 none 100 sd sd' hpre hpost

/-- C8: an unknown session id or a session without a pending question is
rejected with the corresponding error before any mutation: the whole
engine state (sessions, monitor, histories) is returned unchanged. -/
theorem c8_error_rejection_no_side_effects
    (reSearch : String → String → Bool) (sim : String → String → ℚ)
    (st : EngineState) (sid a : String) (t : Int) (c : Option String)
    (now : ℚ) :
    (lookupA st.active_sessions sid = none →
      submitAnswer reSearch sim st sid a t c now =
        (st, .error ("Session " ++ sid ++ " not found"))) ∧
    (∀ sd, lookupA st.active_sessions sid = some sd →
      sd.session.current_question = none →
      submitAnswer reSearch sim st sid a t c now =
        (st, .error "No current question for this session")) := by
  constructor
  · intro h
    simp only [submitAnswer, h]
  · intro sd h hq
    simp only [submitAnswer, h, hq]

/-- C8 (witness): both rejection paths at concrete states. -/
theorem c8_error_rejection_witness :
    submitAnswer reNone simZero ⟨bank3, [], []⟩ "nope" "text" 1 none 0 =
      (⟨bank3, [], []⟩, .error ("Session " ++ "nope" ++ " not found")) ∧
    submitAnswer reNone simZero
        ⟨bank3, [], [("s", newSessionData "s" "c" "j" 0 [])]⟩
        "s" "text" 1 none 0 =
      (⟨bank3, [], [("s", newSessionData "s" "c" "j" 0 [])]⟩,
        .error "No current question for this session") :=
  ⟨(c8_error_rejection_no_side_effects reNone simZero ⟨bank3, [], []⟩ "nope"
      "text" 1 none 0).1 (by decide),
   (c8_error_rejection_no_side_effects reNone simZero
      ⟨bank3, [], [("s", newSessionData "s" "c" "j" 0 [])]⟩ "s"
      "text" 1 none 0).2 (newSessionData "s" "c" "j" 0 []) (by decide)
      (by decide)⟩

theorem text_score_nonneg (reSearch : String → String → Bool)
    (txt : String) : 0 ≤ (analyzeTextIntegrity reSearch txt).score := by
  unfold analyzeTextIntegrity
  by_cases h : (strTrim txt).length < 3
  · rw [if_pos h]
  · rw [if_neg h]
    exact le_max_left 0 _

theorem consistency_score_nonneg (ans : Answer)
    (prev : List MonitorAnswer) :
    0 ≤ (analyzeAnswerConsistency ans prev).score := by
  unfold analyzeAnswerConsistency
  by_cases h : prev = []
  · rw [if_pos h]
    show (0 : ℚ) ≤ 100
    norm_num
  · rw [if_neg h]
    exact le_max_left 0 _

/-- C10: the 0.7 constant is compared directly against 0-100-scale scores:
a monitor session at or above 0.7 is `LOW` risk, a session integrity score
above 0.7 yields a `compliant` report, and every per-answer overall
integrity score produced by the analysis is at least 15 — far above 0.7 —
so `HIGH` risk and `flagged` status require a sub-0.7 score that the
analysis can never produce. -/
theorem c10_integrity_thresholds :
    (∀ (mon : MonitorState) (sid : String) (ms : MonitorSession) (now : ℚ),
      lookupA mon sid = some ms →
      integrityScoreThreshold ≤ ms.current_integrity_score →
      (getSessionIntegrityReport mon sid now).map (·.risk_level) =
        .ok "LOW") ∧
    (∀ (sd : SessionData) (sid : String) (now : ℚ),
      integrityScoreThreshold < sd.session.integrity_score →
      (generateInterviewReport sd sid now).compliance_summary.overall_status
        = "compliant") ∧
    (∀ (reSearch : String → String → Bool) (mon : MonitorState)
        (sid : String) (ans : Answer) (qt : String) (mon' : MonitorState)
        (im : IntegrityMetrics),
      analyzeAnswerIntegrity reSearch mon sid ans qt = .ok (mon', im) →
      15 ≤ im.overall_integrity_score ∧
      integrityScoreThreshold < im.overall_integrity_score) := by
  refine ⟨?_, ?_, ?_⟩
  · intro mon sid ms now hlk hge
    simp [getSessionIntegrityReport, hlk, Except.map]
    exact hge
  · intro sd sid now h
    simp only [generateInterviewReport]
    rw [if_pos h]
  · intro reSearch mon sid ans qt mon' im h
    unfold analyzeAnswerIntegrity at h
    cases hlk : lookupA mon sid with
    | none =>
      rw [hlk] at h
      exact absurd h (by simp)
    | some s =>
      rw [hlk] at h
      simp only [Except.ok.injEq, Prod.mk.injEq] at h
      obtain ⟨-, him⟩ := h
      subst him
      have hsum : (15 : ℚ) ≤
          ((analyzeTextIntegrity reSearch ans.answer_text).score +
            (analyzeTimingIntegrity ans.time_taken qt).score +
            (analyzeAnswerConsistency ans s.answers).score) / 3 := by
        rw [le_div_iff₀ (by norm_num : (0:ℚ) < 3)]
        have h1 := text_score_nonneg reSearch ans.answer_text
        have h2 := timing_score_ge_45 ans.time_taken qt
        have h3 := consistency_score_nonneg ans s.answers
        linarith
      constructor
      · exact hsum
      · have : integrityScoreThreshold < (15 : ℚ) := by
          unfold integrityScoreThreshold
          norm_num
        exact lt_of_lt_of_le this hsum

/-- Fixtures for the C10 witness. -/
def msW : MonitorSession := ⟨"s", "cand", 0, [], [], [], 100⟩

def monW : MonitorState := [("s", msW)]

def ansW : Answer := ⟨"A", "Good sample answer one.", none, 100, 0, 0, ""⟩

def msW2 : MonitorSession :=
  ⟨"s", "cand", 0, [⟨"A", "Good sample answer one.", 100, 100, [], 0⟩],
    [], [], 100⟩

def imW : IntegrityMetrics := ⟨"s", false, false, false, 100, 100, []⟩

/-- C10 (witness): all three threshold statements at concrete inputs. -/
theorem c10_integrity_thresholds_witness :
    (getSessionIntegrityReport monW "s" 50).map (·.risk_level) =
      .ok "LOW" ∧
    (generateInterviewReport sdW "s" 50).compliance_summary.overall_status
      = "compliant" ∧
    (15 ≤ imW.overall_integrity_score ∧
      integrityScoreThreshold < imW.overall_integrity_score) :=
  ⟨c10_integrity_thresholds.1 monW "s" msW 50 (by decide) (by decide),
   c10_integrity_thresholds.2.1 sdW "s" 50 (by decide),
   c10_integrity_thresholds.2.2 reNone monW "s" ansW "Explain topic one."
     [("s", msW2)] imW (by decide)⟩

/-! ### First-maximum specification for the role-suitability argmax -/

/-- Reference maximum-with-first-tie-break: the element with the greatest
value; on equal values the earlier entry wins. -/
def firstMax : List (String × ℚ) → Option (String × ℚ)
  | [] => none
  | p :: ps =>
    match firstMax ps with
    | none => some p
    | some m => if m.2 > p.2 then some m else some p

theorem firstMax_eq_none_iff (l : List (String × ℚ)) :
    firstMax l = none ↔ l = [] := by
  cases l with
  | nil => simp [firstMax]
  | cons p ps =>
    simp only [firstMax]
    constructor
    · intro h
      cases hm : firstMax ps with
      | none => rw [hm] at h; exact absurd h (by simp)
      | some m =>
        rw [hm] at h
        by_cases hc : m.2 > p.2 <;> simp [hc] at h
    · intro h; exact absurd h (by simp)

theorem firstMax_cons (p : String × ℚ) (ps : List (String × ℚ)) :
    firstMax (p :: ps) =
      match firstMax ps with
      | none => some p
      | some m => if m.2 > p.2 then some m else some p := rfl

/-- The first-maximum dominates every value of the list. -/
theorem firstMax_is_max (l : List (String × ℚ)) (m : String × ℚ)
    (h : firstMax l = some m) : ∀ r ∈ l, r.2 ≤ m.2 := by
  induction l generalizing m with
  | nil => intro r hr; exact absurd hr (by simp)
  | cons p ps ih =>
    intro r hr
    rw [firstMax_cons] at h
    cases hm : firstMax ps with
    | none =>
      rw [hm] at h
      have hps : ps = [] := (firstMax_eq_none_iff ps).1 hm
      subst hps
      have h2 : some p = some m := h
      have hpm : p = m := Option.some.inj h2
      subst hpm
      rcases List.mem_cons.1 hr with hh | hh
      · rw [hh]
      · exact absurd hh (by simp)
    | some m' =>
      rw [hm] at h
      have h2 : (if m'.2 > p.2 then some m' else some p) = some m := h
      by_cases hc : m'.2 > p.2
      · rw [if_pos hc] at h2
        have hmm : m' = m := Option.some.inj h2
        subst hmm
        rcases List.mem_cons.1 hr with hh | hh
        · rw [hh]; exact le_of_lt hc
        · exact ih m' hm r hh
      · rw [if_neg hc] at h2
        have hpm : p = m := Option.some.inj h2
        subst hpm
        rcases List.mem_cons.1 hr with hh | hh
        · rw [hh]
        · exact le_trans (ih m' hm r hh) (not_lt.mp hc)

/-- Python's `max(d, key=d.get)` (fold keeping the first strict maximum)
computes exactly the reference first-maximum. -/
theorem pyMaxByValue_eq_firstMax (l : List (String × ℚ)) :
    pyMaxByValue l = (firstMax l).map (·.1) := by
  have key : ∀ (ps : List (String × ℚ)) (p : String × ℚ),
      some (ps.foldl (fun best q => if q.2 > best.2 then q else best) p) =
        firstMax (p :: ps) := by
    intro ps
    induction ps with
    | nil => intro p; simp [firstMax]
    | cons q qs ih =>
      intro p
      have lhs : (q :: qs).foldl
          (fun best r => if r.2 > best.2 then r else best) p =
          qs.foldl (fun best r => if r.2 > best.2 then r else best)
            (if q.2 > p.2 then q else p) := rfl
      rw [lhs, ih]
      by_cases hqp : q.2 > p.2
      · rw [if_pos hqp]
        cases hm : firstMax (q :: qs) with
        | none => exact absurd ((firstMax_eq_none_iff _).1 hm) (by simp)
        | some m =>
          have hdom : q.2 ≤ m.2 :=
            firstMax_is_max (q :: qs) m hm q (by simp)
          have hmp : m.2 > p.2 := lt_of_lt_of_le hqp hdom
          rw [firstMax_cons p (q :: qs), hm]
          show some m = if m.2 > p.2 then some m else some p
          rw [if_pos hmp]
      · rw [if_neg hqp]
        cases hm : firstMax qs with
        | none =>
          have hqs : qs = [] := (firstMax_eq_none_iff qs).1 hm
          subst hqs
          show firstMax [p] = firstMax [p, q]
          rw [firstMax_cons p [], firstMax_cons p [q], firstMax_cons q []]
          show some p = match some q with
            | none => some p
            | some m => if m.2 > p.2 then some m else some p
          show some p = if q.2 > p.2 then some q else some p
          rw [if_neg hqp]
        | some m =>
          rw [firstMax_cons p qs, hm]
          rw [firstMax_cons p (q :: qs), firstMax_cons q qs, hm]
          by_cases hmq : m.2 > q.2
          · show (if m.2 > p.2 then some m else some p) =
              match (if m.2 > q.2 then some m else some q) with
              | none => some p
              | some m' => if m'.2 > p.2 then some m' else some p
            rw [if_pos hmq]
          · show (if m.2 > p.2 then some m else some p) =
              match (if m.2 > q.2 then some m else some q) with
              | none => some p
              | some m' => if m'.2 > p.2 then some m' else some p
            rw [if_neg hmq]
            show (if m.2 > p.2 then some m else some p) =
              if q.2 > p.2 then some q else some p
            have hmp : ¬ m.2 > p.2 := by
              have h1 : m.2 ≤ q.2 := not_lt.mp hmq
              have h2 : q.2 ≤ p.2 := not_lt.mp hqp
              exact not_lt.mpr (le_trans h1 h2)
            rw [if_neg hmp, if_neg hqp]
  cases l with
  | nil => rfl
  | cons p ps =>
    simp only [pyMaxByValue]
    rw [← key ps p]
    rfl

/-- Sum of a list of values each within `[0, w]`. -/
theorem sum_bounds (L : List String) (f : String → ℚ) (w : ℚ)
    (h : ∀ d, 0 ≤ f d ∧ f d ≤ w) :
    0 ≤ (L.map f).sum ∧ (L.map f).sum ≤ w * (L.length : ℚ) := by
  induction L with
  | nil => simp
  | cons d ds ih =>
    simp only [List.map_cons, List.sum_cons, List.length_cons]
    constructor
    · have := (h d).1
      have := ih.1
      linarith
    · have h1 := (h d).2
      have h2 := ih.2
      push_cast
      linarith

/-- Each role's suitability score stays within `[0, 100]` when the domain
scores and the overall score do. -/
theorem roleScore_bounds (domain_scores : List (String × ℚ)) (overall : ℚ)
    (req : RoleRequirement)
    (hds : ∀ p ∈ domain_scores, 0 ≤ p.2 ∧ p.2 ≤ 100)
    (hov : 0 ≤ overall ∧ overall ≤ 100) :
    0 ≤ roleScore domain_scores overall req ∧
    roleScore domain_scores overall req ≤ 100 := by
  have hterm : ∀ (w : ℚ), 0 ≤ w → ∀ d,
      0 ≤ domainContribution domain_scores w d ∧
        domainContribution domain_scores w d ≤ w := by
    intro w hw d
    unfold domainContribution
    cases hlk : lookupA domain_scores d with
    | none => exact ⟨le_refl 0, hw⟩
    | some v =>
      have hv := hds (d, v) (lookupA_mem hlk)
      simp only at hv
      constructor
      · exact mul_nonneg (div_nonneg hv.1 (by norm_num)) hw
      · have h1 : v / 100 ≤ 1 :=
          (div_le_one (by norm_num : (0:ℚ) < 100)).2 hv.2
        have h2 : v / 100 * w ≤ 1 * w :=
          mul_le_mul_of_nonneg_right h1 hw
        linarith
  have hcrit := sum_bounds req.critical_domains
    (domainContribution domain_scores 40) 40 (hterm 40 (by norm_num))
  have hpref := sum_bounds req.preferred_domains
    (domainContribution domain_scores 20) 20 (hterm 20 (by norm_num))
  have hovp : 0 ≤ (if overall ≥ req.min_overall_score
        then overall / 100 * 40 else (0:ℚ)) ∧
      (if overall ≥ req.min_overall_score
        then overall / 100 * 40 else (0:ℚ)) ≤ 40 := by
    split_ifs with hcond
    · constructor
      · exact mul_nonneg (div_nonneg hov.1 (by norm_num)) (by norm_num)
      · have h1 : overall / 100 ≤ 1 :=
          (div_le_one (by norm_num : (0:ℚ) < 100)).2 hov.2
        have h2 : overall / 100 * 40 ≤ 1 * 40 :=
          mul_le_mul_of_nonneg_right h1 (by norm_num)
        linarith
    · exact ⟨le_refl 0, by norm_num⟩
  have hm : (0:ℚ) < 40 * (req.critical_domains.length : ℚ) +
      20 * (req.preferred_domains.length : ℚ) + 40 := by positivity
  simp only [roleScore]
  rw [if_pos hm]
  have hsum0 : 0 ≤ (req.critical_domains.map
        (domainContribution domain_scores 40)).sum +
      (req.preferred_domains.map
        (domainContribution domain_scores 20)).sum +
      (if overall ≥ req.min_overall_score
        then overall / 100 * 40 else (0:ℚ)) := by
    have := hcrit.1; have := hpref.1; have := hovp.1; linarith
  have hsum1 : (req.critical_domains.map
        (domainContribution domain_scores 40)).sum +
      (req.preferred_domains.map
        (domainContribution domain_scores 20)).sum +
      (if overall ≥ req.min_overall_score
        then overall / 100 * 40 else (0:ℚ)) ≤
      40 * (req.critical_domains.length : ℚ) +
        20 * (req.preferred_domains.length : ℚ) + 40 := by
    have := hcrit.2; have := hpref.2; have := hovp.2; linarith
  constructor
  · exact mul_nonneg (div_nonneg hsum0 (le_of_lt hm)) (by norm_num)
  · have hq : _ / _ ≤ (1:ℚ) := (div_le_one hm).2 hsum1
    have := mul_le_mul_of_nonneg_right hq
      (show (0:ℚ) ≤ 100 by norm_num)
    linarith

/-- C9: when every domain score and the overall score lie in `[0, 100]`,
every role-suitability score produced by `_assess_role_suitability` lies in
`[0, 100]`; the reported best-fit role is the first maximum of the
role-score dict in insertion order (Python's `max(d, key=d.get)` keeps the
earliest key on ties), and that maximum dominates every role score. -/
theorem c9_role_suitability_bounds_and_argmax
    (domain_scores : List (String × ℚ)) (overall : ℚ)
    (hds : ∀ p ∈ domain_scores, 0 ≤ p.2 ∧ p.2 ≤ 100)
    (hov : 0 ≤ overall ∧ overall ≤ 100) :
    (∀ p ∈ (assessRoleSuitability domain_scores overall).role_scores,
      0 ≤ p.2 ∧ p.2 ≤ 100) ∧
    (assessRoleSuitability domain_scores overall).best_fit_role =
      ((firstMax
        (assessRoleSuitability domain_scores overall).role_scores).map
          (·.1)) ∧
    (∀ m, firstMax (assessRoleSuitability domain_scores overall).role_scores
        = some m →
      ∀ r ∈ (assessRoleSuitability domain_scores overall).role_scores,
        r.2 ≤ m.2) := by
  refine ⟨?_, ?_, ?_⟩
  · intro p hp
    simp only [assessRoleSuitability] at hp
    rcases List.mem_map.1 hp with ⟨req, hreq, hpe⟩
    rw [← hpe]
    exact roleScore_bounds domain_scores overall req hds hov
  · show pyMaxByValue (roleRequirements.map fun req =>
        (req.role, roleScore domain_scores overall req)) =
      Option.map (fun x => x.1)
        (firstMax (roleRequirements.map fun req =>
          (req.role, roleScore domain_scores overall req)))
    exact pyMaxByValue_eq_firstMax _
  · intro m hm r hr
    exact firstMax_is_max _ m hm r hr

/-- C9 (witness): the bounds and the argmax law at a concrete domain-score
dict. -/
theorem c9_role_suitability_witness :
    (∀ p ∈ (assessRoleSuitability [("machine_learning", 80)] 75).role_scores,
      0 ≤ p.2 ∧ p.2 ≤ 100) ∧
    (assessRoleSuitability [("machine_learning", 80)] 75).best_fit_role =
      ((firstMax
        (assessRoleSuitability [("machine_learning", 80)] 75).role_scores).map
          (·.1)) ∧
    (∀ m, firstMax
        (assessRoleSuitability [("machine_learning", 80)] 75).role_scores
        = some m →
      ∀ r ∈ (assessRoleSuitability [("machine_learning", 80)] 75).role_scores,
        r.2 ≤ m.2) :=
  c9_role_suitability_bounds_and_argmax [("machine_learning", 80)] 75
    (by decide) (by decide)

/-- C3: once a session has recorded at least the minimum question count of
answers (counting the one being submitted), is under the question and time
caps, and the average of the last three scores after this submission leaves
the `[30, 90]` band, `submit_answer` terminates the session: the call
returns `session_complete = true` together with the interview report. -/
theorem c3_score_band_termination
    (reSearch : String → String → Bool) (sim : String → String → ℚ)
    (st : EngineState) (session_id answer_text : String)
    (time_taken : Int) (code_snippet : Option String) (now : ℚ)
    (sd : SessionData) (q : Question)
    (hsd : lookupA st.active_sessions session_id = some sd)
    (hq : sd.session.current_question = some q)
    (hintg : (analyzeAnswerIntegrity reSearch st.monitor session_id
        (buildAnswer sim q answer_text time_taken code_snippet now)
        q.text).toOption.isSome = true)
    (hmax : sd.performance_history.length + 1 < maxQuestionsPerSession)
    (htime : now - sd.session.started_at ≤ sessionTimeout)
    (hmin : minQuestionsPerSession ≤ sd.performance_history.length + 1)
    (hband : recentScoreAverage (sd.performance_history.map (·.score) ++
        [(buildAnswer sim q answer_text time_taken code_snippet now).score])
        < 30 ∨
      90 < recentScoreAverage (sd.performance_history.map (·.score) ++
        [(buildAnswer sim q answer_text time_taken code_snippet now).score])) :
    ∃ r, (submitAnswer reSearch sim st session_id answer_text time_taken
        code_snippet now).2 = .ok r ∧
      r.session_complete = true ∧ r.interview_report.isSome = true := by
  cases hx : analyzeAnswerIntegrity reSearch st.monitor session_id
      (buildAnswer sim q answer_text time_taken code_snippet now) q.text with
  | error e =>
    rw [hx] at hintg
    simp [Except.toOption] at hintg
  | ok pr =>
    obtain ⟨mon', metrics⟩ := pr
    have hdet : determineNextAction st.bank
        (updateSessionData sd q
          (buildAnswer sim q answer_text time_taken code_snippet now)
          time_taken metrics) now =
        (updateSessionData sd q
          (buildAnswer sim q answer_text time_taken code_snippet now)
          time_taken metrics, true, none) := by
      apply determineNextAction_band_complete
      · simp only [updateSessionData, List.length_append, List.length_cons,
          List.length_nil]
        omega
      · exact htime
      · simp only [updateSessionData, List.length_append, List.length_cons,
          List.length_nil]
        omega
      · rw [recentAverage_eq_scores]
        have hmapeq : (updateSessionData sd q
            (buildAnswer sim q answer_text time_taken code_snippet now)
            time_taken metrics).performance_history.map (·.score) =
            sd.performance_history.map (·.score) ++
              [(buildAnswer sim q answer_text time_taken code_snippet
                now).score] := by
          simp [updateSessionData]
        rw [hmapeq]
        exact hband
    simp only [submitAnswer, hsd, hq, hx, hdet]
    exact ⟨_, rfl, rfl, rfl⟩

/-- C3 (witness): a fifth zero-score answer after four zero-score answers
ends the session with a report. -/
theorem c3_score_band_termination_witness :
    ∃ r, (submitAnswer reNone simZero c3St "s" "wrong" 100 none 400).2 =
        .ok r ∧ r.session_complete = true ∧ r.interview_report.isSome = true :=
  c3_score_band_termination reNone simZero c3St "s" "wrong" 100 none 400
    c3Sd qMLint (by decide) (by decide) (by decide) (by decide) (by decide)
    (by decide) (Or.inl (by decide))

end ResumeAgent
